import Mathlib

/-!
Verification of the restaurant-recommendation pipeline (`app.py`).

The source manipulates a pandas `DataFrame`.  We embed a data frame as a
list of column labels together with rows of cells, where a cell is either
a string, a rational number (modelling Python/NumPy numerics), or a null
(modelling pandas `NaN`).  All definitions are translated from
`load_and_clean_data`, `categorize_cost`, `filter_and_rank_restaurants`
and the re-ranking logic of `main` in `app.py`.
-/

attribute [local semireducible] Rat.mul Rat.inv Rat.add Rat.sub

/-- Lowercasing of a character list (`str.lower()`). -/
def lowerChars (cs : List Char) : List Char :=
  cs.map Char.toLower

/-- Whitespace trimming of a character list (`str.strip()`). -/
def trimChars (cs : List Char) : List Char :=
  ((cs.dropWhile Char.isWhitespace).reverse.dropWhile Char.isWhitespace).reverse

/-- `str.lower()` on a string. -/
def toLowerStr (s : String) : String :=
  ⟨lowerChars s.data⟩

/-- `str.strip()` on a string. -/
def trimStr (s : String) : String :=
  ⟨trimChars s.data⟩

/-- Does the second character list start with the first? -/
def leadB : List Char → List Char → Bool
  | [], _ => true
  | _ :: _, [] => false
  | a :: as, b :: bs => a == b && leadB as bs

/-- Does the needle occur inside the haystack? -/
def insideB (n : List Char) : List Char → Bool
  | [] => leadB n []
  | b :: bs => leadB n (b :: bs) || insideB n bs

/-- A cell of a pandas data frame: a string, a number, or `NaN`. -/
inductive Val where
  | vStr (s : String)
  | vNum (q : ℚ)
  | vNull
  deriving DecidableEq

/-- A pandas data frame: column labels plus rows of cells, each row
aligned positionally with `cols`. -/
structure DataFrame where
  cols : List String
  rows : List (List Val)
  deriving DecidableEq

/-- Well-formedness: every row has exactly one cell per column. -/
def DataFrame.Wf (df : DataFrame) : Prop :=
  ∀ r ∈ df.rows, r.length = df.cols.length

instance (df : DataFrame) : Decidable df.Wf := by
  unfold DataFrame.Wf; infer_instance

/-- Read the cell of `row` under the first column named `c`
(`df[c]` row-wise); `vNull` when the column is missing. -/
def getCell : List String → List Val → String → Val
  | [], _, _ => .vNull
  | _ :: _, [], _ => .vNull
  | c :: cs, x :: xs, t => if c = t then x else getCell cs xs t

/-- Write cell `v` under column `c` (`df[c] = ...` row-wise): replace in
place when the column exists, append at the end otherwise. -/
def setCellRow : List String → List Val → String → Val → List Val
  | [], row, _, v => row ++ [v]
  | _ :: _, [], _, _ => []
  | c :: cs, x :: xs, t, v => if c = t then v :: xs else x :: setCellRow cs xs t v

/-- Column labels after `df[c] = ...`: unchanged when present, appended
at the end otherwise. -/
def colsAfterSet (cols : List String) (c : String) : List String :=
  if cols.contains c then cols else cols ++ [c]

/-- `df[c] = f(row)` for every row: the common shape of the column
assignments in `load_and_clean_data`. -/
def deriveColDF (df : DataFrame) (c : String) (f : List Val → Val) : DataFrame :=
  ⟨colsAfterSet df.cols c, df.rows.map (fun r => setCellRow df.cols r c (f r))⟩

/-- Digits to a natural number. -/
def digitsToNat (ds : List Char) : Nat :=
  ds.foldl (fun n c => n * 10 + (c.toNat - 48)) 0

/-- Optional sign at the head of a numeral. -/
def parseSign : List Char → Bool × List Char
  | '-' :: r => (true, r)
  | '+' :: r => (false, r)
  | r => (false, r)

/-- Mantissa of a Python float literal: digits with an optional decimal
point (`"12"`, `"12.5"`, `".5"`, `"5."`). -/
def parseMant (cs : List Char) : Option (ℚ × List Char) :=
  let ip := cs.takeWhile Char.isDigit
  let r1 := cs.dropWhile Char.isDigit
  match r1 with
  | '.' :: r2 =>
    let fp := r2.takeWhile Char.isDigit
    let r3 := r2.dropWhile Char.isDigit
    if ip.isEmpty && fp.isEmpty then none
    else some ((digitsToNat ip : ℚ) + (digitsToNat fp : ℚ) / ((10 : ℚ) ^ fp.length), r3)
  | _ => if ip.isEmpty then none else some ((digitsToNat ip : ℚ), r1)

/-- Optional exponent suffix (`e3`, `e-2`, ...). -/
def parseExp : List Char → Option ℤ
  | [] => some 0
  | 'e' :: r =>
    let (neg, r1) := parseSign r
    let ds := r1.takeWhile Char.isDigit
    let r2 := r1.dropWhile Char.isDigit
    if ds.isEmpty || !r2.isEmpty then none
    else some (if neg then -(digitsToNat ds : ℤ) else (digitsToNat ds : ℤ))
  | _ => none

/-- Parsing of finite Python float literals, as used by `float(...)` and
`pd.to_numeric(..., errors='coerce')`: optional surrounding whitespace,
optional sign, digits with optional fraction, optional exponent.
(Special values `nan`/`inf` are handled separately where the source's
behaviour on them matters; digit-group underscores are not modelled.) -/
def parseNumQ (s : String) : Option ℚ :=
  let cs := lowerChars (trimChars s.data)
  let (neg, r0) := parseSign cs
  match parseMant r0 with
  | none => none
  | some (m, rest) =>
    match parseExp rest with
    | none => none
    | some e => some (if neg then -(m * (10 : ℚ) ^ e) else m * (10 : ℚ) ^ e)

/-- `pd.to_numeric(v, errors='coerce')` on one cell. -/
def to_numeric_coerce : Val → Val
  | .vNum q => .vNum q
  | .vStr s => match parseNumQ s with
    | some q => .vNum q
    | none => .vNull
  | .vNull => .vNull

/-- The alias table of `load_and_clean_data` (`column_map`), in Python
dict insertion order. -/
def columnMapL : List (String × List String) :=
  [("name", ["Restaurant Name", "restaurant_name", "name"]),
   ("location", ["City", "Locality", "Locality Verbose", "Address", "location"]),
   ("rating", ["Aggregate rating", "rate", "rating", "Rating"]),
   ("cost", ["Average Cost for two", "cost_for_two", "approx_cost", "cost", "average_cost"]),
   ("cuisines", ["Cuisines", "cuisine", "Cuisine"]),
   ("votes", ["Votes", "votes", "vote_count"])]

/-- One pass of the renaming loop: the first alias present in the
current columns is renamed to the canonical name (`df.rename`). -/
def renameOne (cols : List String) (canon : String) (aliases : List String) : List String :=
  match aliases.find? (fun a => cols.contains a) with
  | some a => cols.map (fun c => if c = a then canon else c)
  | none => cols

/-- The full renaming loop over `column_map`. -/
def applyRenames (cols : List String) : List String :=
  columnMapL.foldl (fun cs p => renameOne cs p.1 p.2) cols

/-- Renaming stage: labels change, cell data does not. -/
def renameStage (df : DataFrame) : DataFrame :=
  ⟨applyRenames df.cols, df.rows⟩

/-- The subset of `['name', 'location']` present in the columns
(`duplicate_cols` in the source). -/
def dedupKeyCols (cols : List String) : List String :=
  ["name", "location"].filter (fun c => cols.contains c)

/-- The deduplication key of a row: its cells under the present key
columns. -/
def keyOf (cols : List String) (r : List Val) : List Val :=
  (dedupKeyCols cols).map (getCell cols r)

/-- Worker for `drop_duplicates`: keep a row iff its key has not been
seen before. -/
def dedupByAux (k : List Val → List Val) (seen : List (List Val)) :
    List (List Val) → List (List Val)
  | [] => []
  | r :: rs =>
    if seen.contains (k r) then dedupByAux k seen rs
    else r :: dedupByAux k (k r :: seen) rs

/-- `drop_duplicates` keeping the first occurrence of each key. -/
def dedupBy (k : List Val → List Val) (l : List (List Val)) : List (List Val) :=
  dedupByAux k [] l

/-- Deduplication stage (`df.drop_duplicates(subset=duplicate_cols)`,
applied only when at least one of name/location is present). -/
def dedupStage (df : DataFrame) : DataFrame :=
  if (dedupKeyCols df.cols).isEmpty then df
  else ⟨df.cols, dedupBy (keyOf df.cols) df.rows⟩

/-- The fixed list of known-irrelevant columns dropped by the source. -/
def columnsToDrop : List String :=
  ["Restaurant ID", "Country Code", "Currency", "Has Table booking", "Has Online delivery",
   "Is delivering now", "Switch to order menu", "Price range", "Rating color", "Rating text"]

/-- Drop the cells of a row that sit under a dropped column. -/
def dropRow : List String → List Val → List Val
  | [], _ => []
  | _ :: _, [] => []
  | c :: cs, x :: xs => if columnsToDrop.contains c then dropRow cs xs else x :: dropRow cs xs

/-- Column-dropping stage (`df.drop(columns=...)`). -/
def dropColsStage (df : DataFrame) : DataFrame :=
  ⟨df.cols.filter (fun c => !columnsToDrop.contains c), df.rows.map (dropRow df.cols)⟩

/-- Is a cell pandas-null? -/
def isNullV : Val → Bool
  | .vNull => true
  | _ => false

/-- `df.dropna(thresh=len(df.columns) * 0.7)`: keep the rows with at
least 70% non-null cells. -/
def dropnaStage (df : DataFrame) : DataFrame :=
  ⟨df.cols, df.rows.filter
    (fun r => ((r.countP (fun v => !isNullV v) : ℚ)) ≥ (df.cols.length : ℚ) * 7 / 10)⟩

/-- `pd.to_numeric(df['rating'], errors='coerce').fillna(3.0)` on one
cell: always numeric. -/
def ratingFix (v : Val) : Val :=
  .vNum (match v with
    | .vNum q => q
    | .vStr s => (parseNumQ s).getD 3
    | .vNull => 3)

/-- Rating stage: coerce-and-default when the column exists, constant
default `3.0` otherwise. -/
def ratingStage (df : DataFrame) : DataFrame :=
  if df.cols.contains "rating" then
    deriveColDF df "rating" (fun r => ratingFix (getCell df.cols r "rating"))
  else
    deriveColDF df "rating" (fun _ => .vNum 3)

/-- `astype(str)` + `str.replace(',', '')` + `pd.to_numeric(errors='coerce')`
on one cost cell.  A numeric cell round-trips through its decimal string;
`NaN` prints as `"nan"`, which `to_numeric` coerces back to `NaN`. -/
def costParse : Val → Option ℚ
  | .vNum q => some q
  | .vStr s => parseNumQ ⟨s.data.filter (fun c => c ≠ ',')⟩
  | .vNull => none

/-- Insertion into an ascending sorted list of rationals. -/
def insertAsc (q : ℚ) : List ℚ → List ℚ
  | [] => [q]
  | x :: xs => if q ≤ x then q :: x :: xs else x :: insertAsc q xs

/-- Ascending insertion sort on rationals. -/
def sortAsc : List ℚ → List ℚ
  | [] => []
  | x :: xs => insertAsc x (sortAsc xs)

/-- `Series.median()` with pandas' linear interpolation: the middle
element for odd length, the mean of the two middle elements for even. -/
def medianQ (l : List ℚ) : ℚ :=
  let s := sortAsc l
  let n := s.length
  if n % 2 = 1 then s.getD (n / 2) 0
  else (s.getD (n / 2 - 1) 0 + s.getD (n / 2) 0) / 2

/-- `df['cost'].median() if not df['cost'].isna().all() else 500`,
computed over the coerced cost column. -/
def costMedian (df : DataFrame) : ℚ :=
  let vals := df.rows.filterMap (fun r => costParse (getCell df.cols r "cost"))
  if vals.isEmpty then 500 else medianQ vals

/-- Cost stage: strip separators, coerce, fill nulls with the column
median (or `500` when nothing parses); constant `500` when the column
is absent. -/
def costStage (df : DataFrame) : DataFrame :=
  if df.cols.contains "cost" then
    deriveColDF df "cost"
      (fun r => .vNum ((costParse (getCell df.cols r "cost")).getD (costMedian df)))
  else
    deriveColDF df "cost" (fun _ => .vNum 500)

/-- Location stage: only acts when the column is absent
(`df['location'] = 'Unknown'`). -/
def locationStage (df : DataFrame) : DataFrame :=
  if df.cols.contains "location" then df
  else deriveColDF df "location" (fun _ => .vStr "Unknown")

/-- `df['cuisines'].fillna('Unknown').str.lower()` on one cell: nulls
become `"unknown"`, strings are lowercased, and pandas' `.str` accessor
turns a non-string cell into `NaN`. -/
def cuisFix (v : Val) : Val :=
  match v with
  | .vNull => .vStr "unknown"
  | .vStr s => .vStr (toLowerStr s)
  | .vNum _ => .vNull

/-- Cuisines stage: fill-and-lowercase when the column exists, constant
`'Unknown'` (capitalised, straight from line 83 of the source, with no
lowercasing applied) when it is absent. -/
def cuisinesStage (df : DataFrame) : DataFrame :=
  if df.cols.contains "cuisines" then
    deriveColDF df "cuisines" (fun r => cuisFix (getCell df.cols r "cuisines"))
  else
    deriveColDF df "cuisines" (fun _ => .vStr "Unknown")

/-- Votes stage: only acts when the column is absent (`df['votes'] = 0`). -/
def votesStage (df : DataFrame) : DataFrame :=
  if df.cols.contains "votes" then df
  else deriveColDF df "votes" (fun _ => .vNum 0)

/-- The numeric trichotomy inside `categorize_cost`. -/
def catQ (q : ℚ) : String :=
  if q < 300 then "low" else if q < 700 then "medium" else "high"

/-- Is the string a `nan` literal for Python's `float(...)`? -/
def nanStr (s : String) : Bool :=
  let t := toLowerStr (trimStr s)
  t = "nan" || t = "-nan" || t = "+nan"

/-- Is the string a `+inf` literal for Python's `float(...)`? -/
def posInfStr (s : String) : Bool :=
  let t := toLowerStr (trimStr s)
  t = "inf" || t = "+inf" || t = "infinity" || t = "+infinity"

/-- Is the string a `-inf` literal for Python's `float(...)`? -/
def negInfStr (s : String) : Bool :=
  let t := toLowerStr (trimStr s)
  t = "-inf" || t = "-infinity"

/-- Is a string one of the special floats accepted by Python's
`float(...)` (which therefore do NOT raise, so do NOT reach the
`except` branch of `categorize_cost`)? -/
def pyFloatSpecial (s : String) : Bool :=
  nanStr s || posInfStr s || negInfStr s

/-- `categorize_cost` from the source.  `float(...)` succeeds on numbers
and on numeric strings; the `except (ValueError, TypeError)` branch
yields `'medium'`.  A `NaN` cell (`float(nan)` is a float) fails both
`< 300` and `< 700` comparisons and falls through to `'high'`; special
string floats behave like the float they denote. -/
def categorize_cost (v : Val) : String :=
  match v with
  | .vNum q => catQ q
  | .vNull => "high"
  | .vStr s =>
    if nanStr s then "high"
    else if posInfStr s then "high"
    else if negInfStr s then "low"
    else match parseNumQ s with
      | some q => catQ q
      | none => "medium"

/-- Cost-category stage (`df['cost_category'] = df['cost'].apply(categorize_cost)`). -/
def costCategoryStage (df : DataFrame) : DataFrame :=
  deriveColDF df "cost_category" (fun r => .vStr (categorize_cost (getCell df.cols r "cost")))

/-- `lambda x: x.split(',')[0].strip() if isinstance(x, str) else 'unknown'`. -/
def primaryCuisine (v : Val) : Val :=
  match v with
  | .vStr s => .vStr ⟨trimChars (s.data.takeWhile (fun c => c ≠ ','))⟩
  | _ => .vStr "unknown"

/-- Primary-cuisine stage. -/
def primaryCuisineStage (df : DataFrame) : DataFrame :=
  deriveColDF df "primary_cuisine" (fun r => primaryCuisine (getCell df.cols r "cuisines"))

/-- `df['rating'].clip(1, 5)` on one cell (`NaN` stays `NaN`; a string
cell would raise in pandas and is modelled as null, unreachable after
the rating stage). -/
def clipRating (v : Val) : Val :=
  match v with
  | .vNum q => .vNum (min (max q 1) 5)
  | _ => .vNull

/-- Normalized-rating stage. -/
def normalizedRatingStage (df : DataFrame) : DataFrame :=
  deriveColDF df "normalized_rating" (fun r => clipRating (getCell df.cols r "rating"))

/-- The whole cleaning body of `load_and_clean_data` after a successful
`pd.read_csv`: rename, deduplicate, drop irrelevant columns, drop
>30%-null rows, default/coerce the six canonical fields, derive
features. -/
def cleanTable (df : DataFrame) : DataFrame :=
  normalizedRatingStage (primaryCuisineStage (costCategoryStage (votesStage
    (cuisinesStage (locationStage (costStage (ratingStage
      (dropnaStage (dropColsStage (dedupStage (renameStage df)))))))))))

/-- A Python exception raised by `pd.read_csv`. -/
inductive PyExc where
  | unicodeDecodeError
  | otherExc (msg : String)
  deriving DecidableEq

/-- A CSV source, abstracted by what each of the two `pd.read_csv`
attempts of the source would produce: first `encoding='latin1'`, then
`encoding='iso-8859-1'`. -/
structure CsvSource where
  readLatin1 : Except PyExc DataFrame
  readIso88591 : Except PyExc DataFrame

/-- How a call of `load_and_clean_data` can end. -/
inductive LoadOutcome where
  | ok (df : DataFrame)
  | errorReturn (msg : String)
  | uncaught (e : PyExc)
  deriving DecidableEq

/-- `load_and_clean_data`: try latin1; on `UnicodeDecodeError` retry
iso-8859-1 — an exception raised inside that `except` clause is NOT
caught by the sibling `except Exception` clause and escapes uncaught;
any other first-attempt exception hits `st.error(...)` and returns
`None`.  A successful read runs the cleaning body. -/
def load_and_clean_data (src : CsvSource) : LoadOutcome :=
  match src.readLatin1 with
  | .ok df => .ok (cleanTable df)
  | .error .unicodeDecodeError =>
    match src.readIso88591 with
    | .ok df => .ok (cleanTable df)
    | .error e => .uncaught e
  | .error (.otherExc m) => .errorReturn ("Error loading file: " ++ m)

/-- Is `c` one of Python `re`'s special characters?  A pattern free of
them is matched by `re.search` exactly as a literal substring and can
never raise `re.error`. -/
def regexMetaChar (c : Char) : Bool :=
  c == '.' || c == '^' || c == '$' || c == '*' || c == '+' || c == '?' ||
  c == '{' || c == '}' || c == '[' || c == ']' || c == '\\' || c == '|' ||
  c == '(' || c == ')'

/-- Is the string a regex-LITERAL pattern piece (no `re` special
characters)?  The filter-stage theorems are stated on this fragment:
`pd.Series.str.contains` compiles its pattern as a regex
(`regex=True`), so a free-text pattern containing metacharacters is
matched with full regex semantics — or raises `re.error` when invalid —
which this embedding does not model. -/
def regexLiteral (s : String) : Bool :=
  s.data.all (fun c => !regexMetaChar c)

/-- Does `hay` contain `needle` as a substring?  This is `re.search`
(what `str.contains` runs) restricted to the regex-literal fragment:
for a `needle` with `regexLiteral needle = true`, regex search and
literal substring containment coincide.  For a pattern WITH
metacharacters the source's regex semantics (wildcards, groups,
possible `re.error`) are not modelled, and no filter-stage theorem is
stated on such patterns. -/
def substrB (needle hay : String) : Bool :=
  insideB needle.data hay.data

/-- `str.contains('|'.join(pats))`: when every piece is regex-literal,
the alternation matches iff some piece is a substring — except that the
empty alternation `''` (empty pattern LIST) matches every string, and
an empty PIECE contributes an empty alternative that also matches
everything (both captured here, since an empty needle is a substring of
anything).  Pieces with metacharacters are outside the modelled
fragment (see `regexLiteral`). -/
def regexAltContains (pats : List String) (hay : String) : Bool :=
  pats.isEmpty || pats.any (fun p => substrB p hay)

/-- Cuisine filter condition:
`df['primary_cuisine'].str.lower().str.contains('|'.join(cuisines), na=False)`.
Null (and non-string, which `.str.lower()` nulls out) cells match
nothing (`na=False`).  Faithful on requests whose cuisine strings are
regex-literal (see `regexLiteral`); the UI's fixed multiselect options
all are. -/
def cuisineCond (cols : List String) (cs : List String) (r : List Val) : Bool :=
  match getCell cols r "primary_cuisine" with
  | .vStr s => regexAltContains cs (toLowerStr s)
  | _ => false

/-- Budget filter condition:
`df['cost_category'].str.lower() == budget.lower()` (`NaN == x` is false). -/
def budgetCond (cols : List String) (budget : String) (r : List Val) : Bool :=
  match getCell cols r "cost_category" with
  | .vStr s => decide (toLowerStr s = toLowerStr budget)
  | _ => false

/-- Location filter condition:
`df['location'].str.lower().str.contains(location, na=False)`.
Faithful on requests whose location string is regex-literal (see
`regexLiteral`): the location comes from a free-text input, and one
containing `re` metacharacters is matched by the source as a regex
(e.g. `'b.ng'` matches `'bang'`; `'('` raises `re.error`), which is
outside the modelled fragment. -/
def locCond (cols : List String) (loc : String) (r : List Val) : Bool :=
  match getCell cols r "location" with
  | .vStr s => substrB loc (toLowerStr s)
  | _ => false

/-- The `conditions` list of the filter stage, built by presence checks
on the three backing columns, in source order. -/
def condsFor (cols : List String) (cs : List String) (budget loc : String) :
    List (List Val → Bool) :=
  (if cols.contains "primary_cuisine" then [cuisineCond cols cs] else []) ++
  (if cols.contains "cost_category" then [budgetCond cols budget] else []) ++
  (if cols.contains "location" then [locCond cols loc] else [])

/-- `lambda x: min(x, 1000) / 1000 if pd.notnull(x) else 0` on one
votes cell (`min` on a string cell would raise `TypeError`). -/
def voteSignal : Val → Option ℚ
  | .vNum v => some (min v 1000 / 1000)
  | .vNull => some 0
  | .vStr _ => none

/-- The score of one filtered row: `normalized_rating * 0.8 + signal * 0.2`
for the exact strategy string `"A: Rating-heavy"`, and the votes-heavy
`0.5 / 0.5` weights for EVERY other strategy value (the bare `else`).
`none` models the `TypeError` on a string cell; a null
`normalized_rating` propagates `NaN` in the source and is conflated
with failure here (unreachable from the cleaning pipeline). -/
def scoreRow (cols : List String) (strategy : String) (row : List Val) : Option ℚ :=
  match getCell cols row "normalized_rating", voteSignal (getCell cols row "votes") with
  | .vNum r, some s =>
    some (if strategy = "A: Rating-heavy" then r * (8 / 10) + s * (2 / 10)
          else r * (5 / 10) + s * (5 / 10))
  | _, _ => none

/-- Sort key used by `sort_values(by='score', ascending=False)`. -/
def sortKeyScore (cols : List String) (r : List Val) : ℚ :=
  match getCell cols r "score" with
  | .vNum q => q
  | _ => 0

/-- Insertion keeping a descending order (stable; the source's sort is
an unspecified-tie-order quicksort — spec §9 leaves ties open — and any
fixed deterministic order realises the behaviour the claims depend on). -/
def insertDesc (k : List Val → ℚ) (x : List Val) : List (List Val) → List (List Val)
  | [] => [x]
  | y :: ys => if k y < k x then x :: y :: ys else y :: insertDesc k x ys

/-- Descending sort by key. -/
def sortDesc (k : List Val → ℚ) : List (List Val) → List (List Val)
  | [] => []
  | x :: xs => insertDesc k x (sortDesc k xs)

/-- Python `f'{q:.1f}'`-style one-decimal rendering (rounding detail of
binary floats simplified; no claim depends on the rendered digits). -/
def fmt1 (q : ℚ) : String :=
  let n : ℤ := (q * 10 + 1 / 2).floor
  toString (Int.fdiv n 10) ++ "." ++ toString (Int.fmod n 10).natAbs

/-- Rendering of a rating cell inside the explanation f-string. -/
def fmt1R : Val → String
  | .vNum q => fmt1 q
  | .vNull => "nan"
  | .vStr s => s

/-- `row['votes'] if pd.notnull(row['votes']) else 0` rendered in the
explanation. -/
def votesDisplay : Val → String
  | .vNull => "0"
  | .vNum q => if q.den = 1 then toString q.num else fmt1 q
  | .vStr s => s

/-- The templated explanation string attached to each top row.  `cs` is
the lowercased cuisine list (the source reassigns `cuisines` at line
118 before building explanations); `budget` and `strategy` are passed
through verbatim; the two conditional segments test column presence on
the row (`'cost_category' in row`, `'rating' in row`). -/
def explain (cols1 : List String) (cs : List String) (budget strategy : String)
    (r : List Val) : String :=
  "Matched on " ++ String.intercalate ", " cs ++ " cuisine" ++
  (if cols1.contains "cost_category" then ", " ++ budget ++ " budget" else "") ++
  (if cols1.contains "rating" then
    ", and " ++ fmt1R (getCell cols1 r "normalized_rating") ++ " rating from " ++
      votesDisplay (getCell cols1 r "votes") ++ " votes"
  else "") ++
  " (Strategy: " ++ strategy ++ ")"

/-- `filter_and_rank_restaurants` on a non-`None` frame (the `df is
None` guard of line 114 short-circuits to an empty frame and never
reaches this body).  Returns the ranked top (`top_restaurants`) paired
with the caller's frame as it stands AFTER the call: in the degenerate
no-condition case `filtered_df` aliases `df`, so the score assignment
of lines 140-144 mutates the caller's frame in place; with at least one
condition, boolean-mask indexing copies and the input is untouched.
`none` models the uncaught `KeyError`/`TypeError` when the scoring
columns are missing or string-typed. -/
def filter_and_rank_restaurants (df : DataFrame) (cuisines : List String)
    (budget location strategy : String) (topN : Nat) :
    Option (DataFrame × DataFrame) :=
  let cs := cuisines.map toLowerStr
  let loc := toLowerStr location
  let conds := condsFor df.cols cs budget loc
  let fr := conds.foldl (fun rs c => rs.filter c) df.rows
  if df.cols.contains "normalized_rating" && df.cols.contains "votes" then
    match fr.mapM (scoreRow df.cols strategy) with
    | none => none
    | some scores =>
      let cols1 := colsAfterSet df.cols "score"
      let scored := (fr.zip scores).map (fun p => setCellRow df.cols p.1 "score" (.vNum p.2))
      let cols2 := colsAfterSet cols1 "explanation"
      let top := ((sortDesc (sortKeyScore cols1) scored).take topN).map
        (fun r => setCellRow cols1 r "explanation" (.vStr (explain cols1 cs budget strategy r)))
      let dfAfter := if conds.isEmpty then (⟨cols1, scored⟩ : DataFrame) else df
      some (⟨cols2, top⟩, dfAfter)
  else none

/-- The filtered (pre-score) view that `main` recomputes at lines
203-213 and stores in session state for re-ranking — character for
character the same conditions as the engine's filter stage. -/
def filteredView (df : DataFrame) (cuisines : List String) (budget location : String) :
    DataFrame :=
  ⟨df.cols,
   (condsFor df.cols (cuisines.map toLowerStr) budget (toLowerStr location)).foldl
     (fun rs c => rs.filter c) df.rows⟩

/-- "Every row of `df` satisfies `P` at column `c`." -/
def CellAll (df : DataFrame) (c : String) (P : Val → Prop) : Prop :=
  ∀ r ∈ df.rows, P (getCell df.cols r c)

/-- Spec-side cuisine condition (C3), written from the spec's words:
case-insensitive substring match of `primary_cuisine` against any
requested cuisine, with the amendment that an empty requested-cuisine
set matches every record whose `primary_cuisine` is a non-null string
(the source's empty regex alternation matches everything); a null or
non-string cell matches nothing. -/
def specCuisineOk (cols : List String) (cs : List String) (r : List Val) : Bool :=
  match getCell cols r "primary_cuisine" with
  | .vStr s => cs.isEmpty || cs.any (fun c => substrB (toLowerStr c) (toLowerStr s))
  | _ => false

/-- Spec-side cuisine condition exactly as the claim states it (C3,
unamended): there must BE a requested cuisine that matches. -/
def specCuisineOkStrict (cols : List String) (cs : List String) (r : List Val) : Bool :=
  match getCell cols r "primary_cuisine" with
  | .vStr s => cs.any (fun c => substrB (toLowerStr c) (toLowerStr s))
  | _ => false

/-- Spec-side budget condition (C3): case-insensitive equality of
`cost_category` with the requested budget. -/
def specBudgetOk (cols : List String) (budget : String) (r : List Val) : Bool :=
  match getCell cols r "cost_category" with
  | .vStr s => decide (toLowerStr s = toLowerStr budget)
  | _ => false

/-- Spec-side location condition (C3): case-insensitive substring
containment of the requested location in the record's location. -/
def specLocationOk (cols : List String) (loc : String) (r : List Val) : Bool :=
  match getCell cols r "location" with
  | .vStr s => substrB (toLowerStr loc) (toLowerStr s)
  | _ => false

/-- Spec-side retention predicate of the filter stage (C3): all
structurally applicable conditions hold; a condition whose backing
column is absent is skipped. -/
def specRetain (cols : List String) (cs : List String) (budget loc : String)
    (r : List Val) : Bool :=
  (!cols.contains "primary_cuisine" || specCuisineOk cols cs r) &&
  (!cols.contains "cost_category" || specBudgetOk cols budget r) &&
  (!cols.contains "location" || specLocationOk cols loc r)

/-- Spec-side retention predicate exactly as the claim states it (C3,
unamended). -/
def specRetainStrict (cols : List String) (cs : List String) (budget loc : String)
    (r : List Val) : Bool :=
  (!cols.contains "primary_cuisine" || specCuisineOkStrict cols cs r) &&
  (!cols.contains "cost_category" || specBudgetOk cols budget r) &&
  (!cols.contains "location" || specLocationOk cols loc r)

/-! ### Basic lemmas about cells, columns and rows -/

theorem contains_eq_decide_mem (l : List String) (a : String) :
    l.contains a = decide (a ∈ l) := by
  simp [List.contains]

theorem contains_eq_decide_mem' {α : Type} [DecidableEq α] (l : List α) (a : α) :
    l.contains a = decide (a ∈ l) := by
  simp [List.contains]

theorem colsAfterSet_of_mem {cols : List String} {c : String} (h : c ∈ cols) :
    colsAfterSet cols c = cols := by
  simp [colsAfterSet, contains_eq_decide_mem, h]

theorem colsAfterSet_cons {c' c : String} (cs : List String) (h : c' ≠ c) :
    colsAfterSet (c' :: cs) c = c' :: colsAfterSet cs c := by
  by_cases hm : c ∈ cs
  · simp [colsAfterSet, contains_eq_decide_mem, hm, List.mem_cons, Ne.symm h]
  · simp [colsAfterSet, contains_eq_decide_mem, hm, List.mem_cons, Ne.symm h]

theorem mem_colsAfterSet {x c : String} {cols : List String} :
    x ∈ colsAfterSet cols c ↔ x ∈ cols ∨ x = c := by
  by_cases hm : c ∈ cols
  · rw [colsAfterSet_of_mem hm]
    exact ⟨Or.inl, fun h => h.elim id (fun e => e ▸ hm)⟩
  · simp [colsAfterSet, contains_eq_decide_mem, hm]

theorem length_setCellRow (cols : List String) (row : List Val) (c : String) (v : Val)
    (h : row.length = cols.length) :
    (setCellRow cols row c v).length = (colsAfterSet cols c).length := by
  induction cols generalizing row with
  | nil =>
    have hr : row = [] := List.length_eq_zero.mp (by simpa using h)
    subst hr
    simp [setCellRow, colsAfterSet]
  | cons c' cs ih =>
    match row with
    | [] => simp at h
    | x :: xs =>
      by_cases hc : c' = c
      · subst hc
        rw [colsAfterSet_of_mem (List.mem_cons_self _ _)]
        simpa [setCellRow] using (by simpa using h : xs.length = cs.length)
      · rw [colsAfterSet_cons cs hc]
        simp only [setCellRow, if_neg hc, List.length_cons]
        exact congrArg (· + 1) (ih xs (by simpa using h))

theorem getCell_set_self (cols : List String) (row : List Val) (c : String) (v : Val)
    (h : row.length = cols.length) :
    getCell (colsAfterSet cols c) (setCellRow cols row c v) c = v := by
  induction cols generalizing row with
  | nil =>
    have hr : row = [] := List.length_eq_zero.mp (by simpa using h)
    subst hr
    simp [setCellRow, colsAfterSet, getCell]
  | cons c' cs ih =>
    match row with
    | [] => simp at h
    | x :: xs =>
      by_cases hc : c' = c
      · subst hc
        rw [colsAfterSet_of_mem (List.mem_cons_self _ _)]
        simp [setCellRow, getCell]
      · rw [colsAfterSet_cons cs hc]
        simp only [setCellRow, if_neg hc, getCell]
        exact ih xs (by simpa using h)

theorem getCell_set_other (cols : List String) (row : List Val) (c : String) (v : Val)
    (t : String) (hne : t ≠ c) (h : row.length = cols.length) :
    getCell (colsAfterSet cols c) (setCellRow cols row c v) t = getCell cols row t := by
  induction cols generalizing row with
  | nil =>
    have hr : row = [] := List.length_eq_zero.mp (by simpa using h)
    subst hr
    simp [setCellRow, colsAfterSet, getCell, Ne.symm hne]
  | cons c' cs ih =>
    match row with
    | [] => simp at h
    | x :: xs =>
      by_cases hc : c' = c
      · subst hc
        rw [colsAfterSet_of_mem (List.mem_cons_self _ _)]
        simp [setCellRow, getCell, Ne.symm hne]
      · rw [colsAfterSet_cons cs hc]
        simp only [setCellRow, if_neg hc, getCell]
        by_cases ht : c' = t
        · simp [ht]
        · rw [if_neg ht, if_neg ht]
          exact ih xs (by simpa using h)

theorem wf_deriveColDF (df : DataFrame) (c : String) (f : List Val → Val) (h : df.Wf) :
    (deriveColDF df c f).Wf := by
  intro r hr
  simp only [deriveColDF, List.mem_map] at hr
  obtain ⟨r0, h0, rfl⟩ := hr
  exact length_setCellRow df.cols r0 c (f r0) (h r0 h0)

theorem cellAll_derive_self (df : DataFrame) (c : String) (f : List Val → Val)
    (P : Val → Prop) (hwf : df.Wf) (h : ∀ r ∈ df.rows, P (f r)) :
    CellAll (deriveColDF df c f) c P := by
  intro r hr
  simp only [deriveColDF, List.mem_map] at hr
  obtain ⟨r0, h0, rfl⟩ := hr
  show P (getCell (colsAfterSet df.cols c) (setCellRow df.cols r0 c (f r0)) c)
  rw [getCell_set_self _ _ _ _ (hwf r0 h0)]
  exact h r0 h0

theorem cellAll_derive_other (df : DataFrame) (c : String) (f : List Val → Val)
    (t : String) (P : Val → Prop) (hwf : df.Wf) (hne : t ≠ c) (h : CellAll df t P) :
    CellAll (deriveColDF df c f) t P := by
  intro r hr
  simp only [deriveColDF, List.mem_map] at hr
  obtain ⟨r0, h0, rfl⟩ := hr
  show P (getCell (colsAfterSet df.cols c) (setCellRow df.cols r0 c (f r0)) t)
  rw [getCell_set_other _ _ _ _ _ hne (hwf r0 h0)]
  exact h r0 h0

theorem not_mem_cols_derive {df : DataFrame} {c t : String} (f : List Val → Val)
    (h : t ∉ df.cols) (hne : t ≠ c) : t ∉ (deriveColDF df c f).cols := by
  simp only [deriveColDF]
  rw [mem_colsAfterSet]
  rintro (hm | rfl)
  · exact h hm
  · exact hne rfl

/-! ### Lemmas about the renaming stage -/

theorem length_renameOne (cols : List String) (canon : String) (aliases : List String) :
    (renameOne cols canon aliases).length = cols.length := by
  unfold renameOne
  cases aliases.find? (fun a => cols.contains a) <;> simp

theorem length_applyRenames (cols : List String) :
    (applyRenames cols).length = cols.length := by
  unfold applyRenames
  generalize columnMapL = l
  induction l generalizing cols with
  | nil => rfl
  | cons p ps ih => rw [List.foldl_cons, ih, length_renameOne]

theorem not_mem_renameOne {x : String} {cols : List String} {canon : String}
    (aliases : List String) (hx : x ∉ cols) (hc : x ≠ canon) :
    x ∉ renameOne cols canon aliases := by
  unfold renameOne
  cases aliases.find? (fun a => cols.contains a) with
  | none => exact hx
  | some a =>
    intro hm
    obtain ⟨c, hcm, hce⟩ := List.mem_map.mp hm
    by_cases h : c = a
    · rw [if_pos h] at hce; exact hc hce.symm
    · rw [if_neg h] at hce; exact hx (hce ▸ hcm)

theorem renameOne_of_absent {cols : List String} {canon : String} {aliases : List String}
    (h : ∀ a ∈ aliases, a ∉ cols) : renameOne cols canon aliases = cols := by
  unfold renameOne
  rw [List.find?_eq_none.mpr]
  intro a ha
  simp only [contains_eq_decide_mem, decide_eq_true_eq]
  exact h a ha

/-! ### Lemmas about deduplication -/

theorem mem_of_mem_dedupByAux (k : List Val → List Val) :
    ∀ (l : List (List Val)) (seen : List (List Val)) (r : List Val),
      r ∈ dedupByAux k seen l → r ∈ l := by
  intro l
  induction l with
  | nil => intro seen r h; simp [dedupByAux] at h
  | cons x xs ih =>
    intro seen r h
    unfold dedupByAux at h
    split at h
    · exact List.mem_cons_of_mem _ (ih seen r h)
    · rcases List.mem_cons.mp h with rfl | h'
      · exact List.mem_cons_self _ _
      · exact List.mem_cons_of_mem _ (ih _ r h')

theorem mem_of_mem_dedupBy (k : List Val → List Val) (l : List (List Val)) (r : List Val)
    (h : r ∈ dedupBy k l) : r ∈ l :=
  mem_of_mem_dedupByAux k l [] r h

theorem key_not_seen_of_mem_dedupByAux (k : List Val → List Val) :
    ∀ (l : List (List Val)) (seen : List (List Val)) (b : List Val),
      b ∈ dedupByAux k seen l → k b ∉ seen := by
  intro l
  induction l with
  | nil => intro seen b h; simp [dedupByAux] at h
  | cons x xs ih =>
    intro seen b h
    unfold dedupByAux at h
    split at h
    · exact ih seen b h
    · rcases List.mem_cons.mp h with rfl | h'
      · intro hm
        rename_i hns
        exact hns (by simpa [contains_eq_decide_mem'] using hm)
      · intro hm
        exact (ih _ b h') (List.mem_cons_of_mem _ hm)

theorem dedupByAux_pairwise (k : List Val → List Val) :
    ∀ (l : List (List Val)) (seen : List (List Val)),
      (dedupByAux k seen l).Pairwise (fun a b => k a ≠ k b) := by
  intro l
  induction l with
  | nil => intro seen; simp [dedupByAux]
  | cons x xs ih =>
    intro seen
    unfold dedupByAux
    split
    · exact ih seen
    · refine List.Pairwise.cons ?_ (ih _)
      intro b hb he
      exact key_not_seen_of_mem_dedupByAux k xs _ b hb (he ▸ List.mem_cons_self _ _)

theorem dedupBy_pairwise (k : List Val → List Val) (l : List (List Val)) :
    (dedupBy k l).Pairwise (fun a b => k a ≠ k b) :=
  dedupByAux_pairwise k l []

theorem dedupByAux_covers (k : List Val → List Val) :
    ∀ (l : List (List Val)) (seen : List (List Val)) (r : List Val), r ∈ l →
      k r ∈ seen ∨ ∃ s ∈ dedupByAux k seen l, k s = k r := by
  intro l
  induction l with
  | nil => intro seen r h; simp at h
  | cons x xs ih =>
    intro seen r h
    unfold dedupByAux
    rcases List.mem_cons.mp h with rfl | h'
    · split
      · rename_i hs
        exact Or.inl (by simpa [contains_eq_decide_mem'] using hs)
      · exact Or.inr ⟨r, List.mem_cons_self _ _, rfl⟩
    · split
      · rcases ih seen r h' with hs | ⟨s, hs, hks⟩
        · exact Or.inl hs
        · exact Or.inr ⟨s, hs, hks⟩
      · rcases ih (k x :: seen) r h' with hs | ⟨s, hs, hks⟩
        · rcases List.mem_cons.mp hs with he | hs'
          · exact Or.inr ⟨x, List.mem_cons_self _ _, he.symm⟩
          · exact Or.inl hs'
        · exact Or.inr ⟨s, List.mem_cons_of_mem _ hs, hks⟩

theorem dedupBy_covers (k : List Val → List Val) (l : List (List Val)) (r : List Val)
    (h : r ∈ l) : ∃ s ∈ dedupBy k l, k s = k r := by
  rcases dedupByAux_covers k l [] r h with hs | hex
  · simp at hs
  · exact hex

theorem cols_dedupStage (df : DataFrame) : (dedupStage df).cols = df.cols := by
  unfold dedupStage
  split <;> rfl

theorem rows_sub_dedupStage {df : DataFrame} {r : List Val} (h : r ∈ (dedupStage df).rows) :
    r ∈ df.rows := by
  unfold dedupStage at h
  split at h
  · exact h
  · exact mem_of_mem_dedupBy _ _ _ h

/-! ### Lemmas about column dropping and the null threshold -/

theorem length_dropRow (cols : List String) (row : List Val) (h : row.length = cols.length) :
    (dropRow cols row).length = (cols.filter (fun c => !columnsToDrop.contains c)).length := by
  induction cols generalizing row with
  | nil =>
    have hr : row = [] := List.length_eq_zero.mp (by simpa using h)
    subst hr
    simp [dropRow]
  | cons c' cs ih =>
    match row with
    | [] => simp at h
    | x :: xs =>
      have hxs : xs.length = cs.length := by simpa using h
      cases hd : columnsToDrop.contains c' <;>
        simp only [dropRow, hd, List.filter_cons, Bool.not_false, Bool.not_true,
          if_true, if_false, Bool.false_eq_true, List.length_cons, ih xs hxs]

theorem getCell_dropRow (cols : List String) (row : List Val) (t : String)
    (hc : columnsToDrop.contains t = false) (h : row.length = cols.length) :
    getCell (cols.filter (fun c => !columnsToDrop.contains c)) (dropRow cols row) t =
      getCell cols row t := by
  induction cols generalizing row with
  | nil =>
    have hr : row = [] := List.length_eq_zero.mp (by simpa using h)
    subst hr
    simp [dropRow, getCell]
  | cons c' cs ih =>
    match row with
    | [] => simp at h
    | x :: xs =>
      have hxs : xs.length = cs.length := by simpa using h
      cases hd : columnsToDrop.contains c'
      · simp only [dropRow, hd, List.filter_cons, Bool.not_false, if_true,
          Bool.false_eq_true, if_false]
        by_cases ht : c' = t
        · simp [getCell, ht]
        · simp only [getCell, if_neg ht]
          exact ih xs hxs
      · have hne : c' ≠ t := by
          intro e
          rw [e, hc] at hd
          exact Bool.false_ne_true hd
        simp only [dropRow, hd, List.filter_cons, Bool.not_true, if_true,
          Bool.false_eq_true, if_false]
        rw [ih xs hxs]
        simp [getCell, if_neg hne]

theorem wf_renameStage {df : DataFrame} (h : df.Wf) : (renameStage df).Wf := by
  intro r hr
  rw [show (renameStage df).cols = applyRenames df.cols from rfl, length_applyRenames]
  exact h r hr

theorem wf_dedupStage {df : DataFrame} (h : df.Wf) : (dedupStage df).Wf := by
  intro r hr
  rw [cols_dedupStage]
  exact h r (rows_sub_dedupStage hr)

theorem wf_dropColsStage {df : DataFrame} (h : df.Wf) : (dropColsStage df).Wf := by
  intro r hr
  simp only [dropColsStage, List.mem_map] at hr
  obtain ⟨r0, h0, rfl⟩ := hr
  exact length_dropRow df.cols r0 (h r0 h0)

theorem wf_dropnaStage {df : DataFrame} (h : df.Wf) : (dropnaStage df).Wf := by
  intro r hr
  exact h r (List.mem_of_mem_filter hr)

theorem cellAll_dedupStage {df : DataFrame} {t : String} {P : Val → Prop}
    (h : CellAll df t P) : CellAll (dedupStage df) t P := by
  intro r hr
  rw [cols_dedupStage]
  exact h r (rows_sub_dedupStage hr)

theorem cellAll_dropnaStage {df : DataFrame} {t : String} {P : Val → Prop}
    (h : CellAll df t P) : CellAll (dropnaStage df) t P := by
  intro r hr
  exact h r (List.mem_of_mem_filter hr)

theorem cellAll_dropColsStage {df : DataFrame} {t : String} {P : Val → Prop}
    (hwf : df.Wf) (hc : columnsToDrop.contains t = false) (h : CellAll df t P) :
    CellAll (dropColsStage df) t P := by
  intro r hr
  simp only [dropColsStage, List.mem_map] at hr
  obtain ⟨r0, h0, rfl⟩ := hr
  show P (getCell (df.cols.filter _) (dropRow df.cols r0) t)
  rw [getCell_dropRow df.cols r0 t hc (hwf r0 h0)]
  exact h r0 h0

/-! ### Per-stage well-formedness and cell transport -/

theorem wf_ratingStage {df : DataFrame} (h : df.Wf) : (ratingStage df).Wf := by
  unfold ratingStage; split <;> exact wf_deriveColDF _ _ _ h

theorem wf_costStage {df : DataFrame} (h : df.Wf) : (costStage df).Wf := by
  unfold costStage; split <;> exact wf_deriveColDF _ _ _ h

theorem wf_locationStage {df : DataFrame} (h : df.Wf) : (locationStage df).Wf := by
  unfold locationStage; split
  · exact h
  · exact wf_deriveColDF _ _ _ h

theorem wf_cuisinesStage {df : DataFrame} (h : df.Wf) : (cuisinesStage df).Wf := by
  unfold cuisinesStage; split <;> exact wf_deriveColDF _ _ _ h

theorem wf_votesStage {df : DataFrame} (h : df.Wf) : (votesStage df).Wf := by
  unfold votesStage; split
  · exact h
  · exact wf_deriveColDF _ _ _ h

theorem wf_costCategoryStage {df : DataFrame} (h : df.Wf) : (costCategoryStage df).Wf :=
  wf_deriveColDF _ _ _ h

theorem wf_primaryCuisineStage {df : DataFrame} (h : df.Wf) : (primaryCuisineStage df).Wf :=
  wf_deriveColDF _ _ _ h

theorem wf_normalizedRatingStage {df : DataFrame} (h : df.Wf) : (normalizedRatingStage df).Wf :=
  wf_deriveColDF _ _ _ h

theorem cellAll_ratingStage_other {df : DataFrame} {t : String} {P : Val → Prop}
    (hwf : df.Wf) (hne : t ≠ "rating") (h : CellAll df t P) : CellAll (ratingStage df) t P := by
  unfold ratingStage; split <;> exact cellAll_derive_other _ _ _ _ _ hwf hne h

theorem cellAll_costStage_other {df : DataFrame} {t : String} {P : Val → Prop}
    (hwf : df.Wf) (hne : t ≠ "cost") (h : CellAll df t P) : CellAll (costStage df) t P := by
  unfold costStage; split <;> exact cellAll_derive_other _ _ _ _ _ hwf hne h

theorem cellAll_locationStage_other {df : DataFrame} {t : String} {P : Val → Prop}
    (hwf : df.Wf) (hne : t ≠ "location") (h : CellAll df t P) :
    CellAll (locationStage df) t P := by
  unfold locationStage; split
  · exact h
  · exact cellAll_derive_other _ _ _ _ _ hwf hne h

theorem cellAll_cuisinesStage_other {df : DataFrame} {t : String} {P : Val → Prop}
    (hwf : df.Wf) (hne : t ≠ "cuisines") (h : CellAll df t P) :
    CellAll (cuisinesStage df) t P := by
  unfold cuisinesStage; split <;> exact cellAll_derive_other _ _ _ _ _ hwf hne h

theorem cellAll_votesStage_other {df : DataFrame} {t : String} {P : Val → Prop}
    (hwf : df.Wf) (hne : t ≠ "votes") (h : CellAll df t P) : CellAll (votesStage df) t P := by
  unfold votesStage; split
  · exact h
  · exact cellAll_derive_other _ _ _ _ _ hwf hne h

theorem cellAll_costCategoryStage_other {df : DataFrame} {t : String} {P : Val → Prop}
    (hwf : df.Wf) (hne : t ≠ "cost_category") (h : CellAll df t P) :
    CellAll (costCategoryStage df) t P :=
  cellAll_derive_other _ _ _ _ _ hwf hne h

theorem cellAll_primaryCuisineStage_other {df : DataFrame} {t : String} {P : Val → Prop}
    (hwf : df.Wf) (hne : t ≠ "primary_cuisine") (h : CellAll df t P) :
    CellAll (primaryCuisineStage df) t P :=
  cellAll_derive_other _ _ _ _ _ hwf hne h

theorem cellAll_normalizedRatingStage_other {df : DataFrame} {t : String} {P : Val → Prop}
    (hwf : df.Wf) (hne : t ≠ "normalized_rating") (h : CellAll df t P) :
    CellAll (normalizedRatingStage df) t P :=
  cellAll_derive_other _ _ _ _ _ hwf hne h

theorem cellAll_ratingStage_self {df : DataFrame} (hwf : df.Wf) :
    CellAll (ratingStage df) "rating" (fun v => ∃ q, v = .vNum q) := by
  unfold ratingStage; split
  · exact cellAll_derive_self _ _ _ _ hwf (fun r _ => ⟨_, rfl⟩)
  · exact cellAll_derive_self _ _ _ _ hwf (fun r _ => ⟨_, rfl⟩)

theorem cellAll_costStage_self {df : DataFrame} (hwf : df.Wf) :
    CellAll (costStage df) "cost" (fun v => ∃ q, v = .vNum q) := by
  unfold costStage; split
  · exact cellAll_derive_self _ _ _ _ hwf (fun r _ => ⟨_, rfl⟩)
  · exact cellAll_derive_self _ _ _ _ hwf (fun r _ => ⟨_, rfl⟩)

theorem cellAll_locationStage_absent {df : DataFrame} (hwf : df.Wf)
    (h : "location" ∉ df.cols) :
    CellAll (locationStage df) "location" (fun v => v = .vStr "Unknown") := by
  have hb : df.cols.contains "location" = false := by
    simp [contains_eq_decide_mem, h]
  unfold locationStage
  rw [hb]
  simp only [Bool.false_eq_true, if_false]
  exact cellAll_derive_self _ _ _ _ hwf (fun r _ => rfl)

theorem cellAll_cuisinesStage_absent {df : DataFrame} (hwf : df.Wf)
    (h : "cuisines" ∉ df.cols) :
    CellAll (cuisinesStage df) "cuisines" (fun v => v = .vStr "Unknown") := by
  have hb : df.cols.contains "cuisines" = false := by
    simp [contains_eq_decide_mem, h]
  unfold cuisinesStage
  rw [hb]
  simp only [Bool.false_eq_true, if_false]
  exact cellAll_derive_self _ _ _ _ hwf (fun r _ => rfl)

theorem cellAll_votesStage_absent {df : DataFrame} (hwf : df.Wf)
    (h : "votes" ∉ df.cols) :
    CellAll (votesStage df) "votes" (fun v => v = .vNum 0) := by
  have hb : df.cols.contains "votes" = false := by
    simp [contains_eq_decide_mem, h]
  unfold votesStage
  rw [hb]
  simp only [Bool.false_eq_true, if_false]
  exact cellAll_derive_self _ _ _ _ hwf (fun r _ => rfl)

/-! ### Column-absence transport through the stages -/

theorem not_mem_cols_dedupStage {df : DataFrame} {t : String} (h : t ∉ df.cols) :
    t ∉ (dedupStage df).cols := by
  rw [cols_dedupStage]; exact h

theorem not_mem_cols_dropColsStage {df : DataFrame} {t : String} (h : t ∉ df.cols) :
    t ∉ (dropColsStage df).cols := by
  intro hm
  exact h (List.mem_of_mem_filter hm)

theorem not_mem_cols_dropnaStage {df : DataFrame} {t : String} (h : t ∉ df.cols) :
    t ∉ (dropnaStage df).cols := h

theorem not_mem_cols_ratingStage {df : DataFrame} {t : String} (h : t ∉ df.cols)
    (hne : t ≠ "rating") : t ∉ (ratingStage df).cols := by
  unfold ratingStage; split <;> exact not_mem_cols_derive _ h hne

theorem not_mem_cols_costStage {df : DataFrame} {t : String} (h : t ∉ df.cols)
    (hne : t ≠ "cost") : t ∉ (costStage df).cols := by
  unfold costStage; split <;> exact not_mem_cols_derive _ h hne

theorem not_mem_cols_locationStage {df : DataFrame} {t : String} (h : t ∉ df.cols)
    (hne : t ≠ "location") : t ∉ (locationStage df).cols := by
  unfold locationStage; split
  · exact h
  · exact not_mem_cols_derive _ h hne

theorem not_mem_cols_cuisinesStage {df : DataFrame} {t : String} (h : t ∉ df.cols)
    (hne : t ≠ "cuisines") : t ∉ (cuisinesStage df).cols := by
  unfold cuisinesStage; split <;> exact not_mem_cols_derive _ h hne

theorem not_mem_cols_votesStage {df : DataFrame} {t : String} (h : t ∉ df.cols)
    (hne : t ≠ "votes") : t ∉ (votesStage df).cols := by
  unfold votesStage; split
  · exact h
  · exact not_mem_cols_derive _ h hne

theorem not_mem_cols_costCategoryStage {df : DataFrame} {t : String} (h : t ∉ df.cols)
    (hne : t ≠ "cost_category") : t ∉ (costCategoryStage df).cols :=
  not_mem_cols_derive _ h hne

theorem not_mem_cols_primaryCuisineStage {df : DataFrame} {t : String} (h : t ∉ df.cols)
    (hne : t ≠ "primary_cuisine") : t ∉ (primaryCuisineStage df).cols :=
  not_mem_cols_derive _ h hne

theorem not_mem_cols_normalizedRatingStage {df : DataFrame} {t : String} (h : t ∉ df.cols)
    (hne : t ≠ "normalized_rating") : t ∉ (normalizedRatingStage df).cols :=
  not_mem_cols_derive _ h hne

/-! ### What names the renaming loop can introduce -/

theorem mem_renameOne_strong {x : String} {cols : List String} {canon : String}
    {aliases : List String} (h : x ∈ renameOne cols canon aliases) :
    x ∈ cols ∨ (x = canon ∧ ∃ a ∈ aliases, a ∈ cols) := by
  unfold renameOne at h
  cases hf : aliases.find? (fun a => cols.contains a) with
  | none => rw [hf] at h; exact Or.inl h
  | some a =>
    rw [hf] at h
    obtain ⟨c, hcm, hce⟩ := List.mem_map.mp h
    have ham : a ∈ aliases := List.mem_of_find?_eq_some hf
    have hac : a ∈ cols := by
      have := List.find?_some hf
      simpa [contains_eq_decide_mem] using this
    by_cases hca : c = a
    · rw [if_pos hca] at hce
      exact Or.inr ⟨hce.symm, a, ham, hac⟩
    · rw [if_neg hca] at hce
      exact Or.inl (hce ▸ hcm)

theorem mem_foldl_renames_strong (l : List (String × List String)) :
    ∀ (cols : List String) (x : String),
      x ∈ l.foldl (fun cs p => renameOne cs p.1 p.2) cols →
      x ∈ cols ∨ ∃ p ∈ l, x = p.1 ∧ ∃ a ∈ p.2, (a ∈ cols ∨ ∃ q ∈ l, a = q.1) := by
  induction l with
  | nil => intro cols x h; exact Or.inl h
  | cons p ps ih =>
    intro cols x h
    rw [List.foldl_cons] at h
    rcases ih (renameOne cols p.1 p.2) x h with h1 | ⟨q, hq, hxq, a, ha, hcase⟩
    · rcases mem_renameOne_strong h1 with h2 | ⟨hxp, a, ham, hac⟩
      · exact Or.inl h2
      · exact Or.inr ⟨p, List.mem_cons_self _ _, hxp, a, ham, Or.inl hac⟩
    · rcases hcase with hac | ⟨r, hr, har⟩
      · rcases mem_renameOne_strong hac with h2 | ⟨hap, _, _, _⟩
        · exact Or.inr ⟨q, List.mem_cons_of_mem _ hq, hxq, a, ha, Or.inl h2⟩
        · exact Or.inr ⟨q, List.mem_cons_of_mem _ hq, hxq, a, ha,
            Or.inr ⟨p, List.mem_cons_self _ _, hap⟩⟩
      · exact Or.inr ⟨q, List.mem_cons_of_mem _ hq, hxq, a, ha,
          Or.inr ⟨r, List.mem_cons_of_mem _ hr, har⟩⟩

theorem cuisines_not_mem_applyRenames {cols : List String}
    (h1 : ("Cuisines" : String) ∉ cols) (h2 : ("cuisine" : String) ∉ cols)
    (h3 : ("Cuisine" : String) ∉ cols) (h4 : ("cuisines" : String) ∉ cols) :
    "cuisines" ∉ applyRenames cols := by
  intro hm
  rcases mem_foldl_renames_strong columnMapL cols _ hm with hc | ⟨p, hp, he, a, ha, hcase⟩
  · exact h4 hc
  · simp only [columnMapL, List.mem_cons, List.not_mem_nil, or_false] at hp
    rcases hp with rfl | rfl | rfl | rfl | rfl | rfl
    · exact absurd he (by decide)
    · exact absurd he (by decide)
    · exact absurd he (by decide)
    · exact absurd he (by decide)
    · simp only [List.mem_cons, List.not_mem_nil, or_false] at ha
      have hnc : a ∉ cols := by rcases ha with rfl | rfl | rfl <;> assumption
      rcases hcase with hac | ⟨q, hq, haq⟩
      · exact hnc hac
      · simp only [columnMapL, List.mem_cons, List.not_mem_nil, or_false] at hq
        rcases ha with rfl | rfl | rfl <;>
          (rcases hq with rfl | rfl | rfl | rfl | rfl | rfl <;> exact absurd haq (by decide))
    · exact absurd he (by decide)

theorem name_not_mem_applyRenames {cols : List String}
    (h1 : ("Restaurant Name" : String) ∉ cols) (h2 : ("restaurant_name" : String) ∉ cols)
    (h3 : ("name" : String) ∉ cols) :
    "name" ∉ applyRenames cols := by
  unfold applyRenames columnMapL
  simp only [List.foldl_cons, List.foldl_nil]
  refine not_mem_renameOne _ ?_ (by decide)
  refine not_mem_renameOne _ ?_ (by decide)
  refine not_mem_renameOne _ ?_ (by decide)
  refine not_mem_renameOne _ ?_ (by decide)
  refine not_mem_renameOne _ ?_ (by decide)
  rw [renameOne_of_absent ?_]
  · exact h3
  · intro a ha
    simp only [List.mem_cons, List.not_mem_nil, or_false] at ha
    rcases ha with rfl | rfl | rfl <;> assumption

theorem location_not_mem_applyRenames {cols : List String}
    (h1 : ("City" : String) ∉ cols) (h2 : ("Locality" : String) ∉ cols)
    (h3 : ("Locality Verbose" : String) ∉ cols) (h4 : ("Address" : String) ∉ cols)
    (h5 : ("location" : String) ∉ cols) :
    "location" ∉ applyRenames cols := by
  unfold applyRenames columnMapL
  simp only [List.foldl_cons, List.foldl_nil]
  refine not_mem_renameOne _ ?_ (by decide)
  refine not_mem_renameOne _ ?_ (by decide)
  refine not_mem_renameOne _ ?_ (by decide)
  refine not_mem_renameOne _ ?_ (by decide)
  rw [renameOne_of_absent ?_]
  · exact not_mem_renameOne _ h5 (by decide)
  · intro a ha
    simp only [List.mem_cons, List.not_mem_nil, or_false] at ha
    rcases ha with rfl | rfl | rfl | rfl | rfl <;>
      exact not_mem_renameOne _ (by assumption) (by decide)

theorem votes_not_mem_applyRenames {cols : List String}
    (h1 : ("Votes" : String) ∉ cols) (h2 : ("votes" : String) ∉ cols)
    (h3 : ("vote_count" : String) ∉ cols) :
    "votes" ∉ applyRenames cols := by
  unfold applyRenames columnMapL
  simp only [List.foldl_cons, List.foldl_nil]
  rw [renameOne_of_absent ?_]
  · refine not_mem_renameOne _ ?_ (by decide)
    refine not_mem_renameOne _ ?_ (by decide)
    refine not_mem_renameOne _ ?_ (by decide)
    refine not_mem_renameOne _ ?_ (by decide)
    exact not_mem_renameOne _ h2 (by decide)
  · intro a ha
    simp only [List.mem_cons, List.not_mem_nil, or_false] at ha
    rcases ha with rfl | rfl | rfl <;>
      (refine not_mem_renameOne _ ?_ (by decide)
       refine not_mem_renameOne _ ?_ (by decide)
       refine not_mem_renameOne _ ?_ (by decide)
       refine not_mem_renameOne _ ?_ (by decide)
       exact not_mem_renameOne _ (by assumption) (by decide))

/-! ### Pipeline-level facts about `cleanTable` -/

theorem cleanTable_rating_num {df : DataFrame} (hwf : df.Wf) :
    CellAll (cleanTable df) "rating" (fun v => ∃ q, v = .vNum q) := by
  have w1 : (renameStage df).Wf := wf_renameStage hwf
  have w2 := wf_dedupStage w1
  have w3 := wf_dropColsStage w2
  have w4 := wf_dropnaStage w3
  have w5 := wf_ratingStage w4
  have w6 := wf_costStage w5
  have w7 := wf_locationStage w6
  have w8 := wf_cuisinesStage w7
  have w9 := wf_votesStage w8
  have w10 := wf_costCategoryStage w9
  have w11 := wf_primaryCuisineStage w10
  unfold cleanTable
  refine cellAll_normalizedRatingStage_other w11 (by decide) ?_
  refine cellAll_primaryCuisineStage_other w10 (by decide) ?_
  refine cellAll_costCategoryStage_other w9 (by decide) ?_
  refine cellAll_votesStage_other w8 (by decide) ?_
  refine cellAll_cuisinesStage_other w7 (by decide) ?_
  refine cellAll_locationStage_other w6 (by decide) ?_
  refine cellAll_costStage_other w5 (by decide) ?_
  exact cellAll_ratingStage_self w4

theorem cleanTable_cost_num {df : DataFrame} (hwf : df.Wf) :
    CellAll (cleanTable df) "cost" (fun v => ∃ q, v = .vNum q) := by
  have w1 : (renameStage df).Wf := wf_renameStage hwf
  have w2 := wf_dedupStage w1
  have w3 := wf_dropColsStage w2
  have w4 := wf_dropnaStage w3
  have w5 := wf_ratingStage w4
  have w6 := wf_costStage w5
  have w7 := wf_locationStage w6
  have w8 := wf_cuisinesStage w7
  have w9 := wf_votesStage w8
  have w10 := wf_costCategoryStage w9
  have w11 := wf_primaryCuisineStage w10
  unfold cleanTable
  refine cellAll_normalizedRatingStage_other w11 (by decide) ?_
  refine cellAll_primaryCuisineStage_other w10 (by decide) ?_
  refine cellAll_costCategoryStage_other w9 (by decide) ?_
  refine cellAll_votesStage_other w8 (by decide) ?_
  refine cellAll_cuisinesStage_other w7 (by decide) ?_
  refine cellAll_locationStage_other w6 (by decide) ?_
  exact cellAll_costStage_self w5

theorem cleanTable_name_not_mem {df : DataFrame}
    (h1 : ("Restaurant Name" : String) ∉ df.cols)
    (h2 : ("restaurant_name" : String) ∉ df.cols)
    (h3 : ("name" : String) ∉ df.cols) :
    "name" ∉ (cleanTable df).cols := by
  unfold cleanTable
  refine not_mem_cols_normalizedRatingStage ?_ (by decide)
  refine not_mem_cols_primaryCuisineStage ?_ (by decide)
  refine not_mem_cols_costCategoryStage ?_ (by decide)
  refine not_mem_cols_votesStage ?_ (by decide)
  refine not_mem_cols_cuisinesStage ?_ (by decide)
  refine not_mem_cols_locationStage ?_ (by decide)
  refine not_mem_cols_costStage ?_ (by decide)
  refine not_mem_cols_ratingStage ?_ (by decide)
  refine not_mem_cols_dropnaStage ?_
  refine not_mem_cols_dropColsStage ?_
  refine not_mem_cols_dedupStage ?_
  exact name_not_mem_applyRenames h1 h2 h3

theorem cleanTable_location_default {df : DataFrame} (hwf : df.Wf)
    (h1 : ("City" : String) ∉ df.cols) (h2 : ("Locality" : String) ∉ df.cols)
    (h3 : ("Locality Verbose" : String) ∉ df.cols) (h4 : ("Address" : String) ∉ df.cols)
    (h5 : ("location" : String) ∉ df.cols) :
    CellAll (cleanTable df) "location" (fun v => v = .vStr "Unknown") := by
  have w1 : (renameStage df).Wf := wf_renameStage hwf
  have w2 := wf_dedupStage w1
  have w3 := wf_dropColsStage w2
  have w4 := wf_dropnaStage w3
  have w5 := wf_ratingStage w4
  have w6 := wf_costStage w5
  have w7 := wf_locationStage w6
  have w8 := wf_cuisinesStage w7
  have w9 := wf_votesStage w8
  have w10 := wf_costCategoryStage w9
  have w11 := wf_primaryCuisineStage w10
  have habs : "location" ∉
      (costStage (ratingStage (dropnaStage (dropColsStage (dedupStage (renameStage df)))))).cols := by
    refine not_mem_cols_costStage ?_ (by decide)
    refine not_mem_cols_ratingStage ?_ (by decide)
    refine not_mem_cols_dropnaStage ?_
    refine not_mem_cols_dropColsStage ?_
    refine not_mem_cols_dedupStage ?_
    exact location_not_mem_applyRenames h1 h2 h3 h4 h5
  unfold cleanTable
  refine cellAll_normalizedRatingStage_other w11 (by decide) ?_
  refine cellAll_primaryCuisineStage_other w10 (by decide) ?_
  refine cellAll_costCategoryStage_other w9 (by decide) ?_
  refine cellAll_votesStage_other w8 (by decide) ?_
  refine cellAll_cuisinesStage_other w7 (by decide) ?_
  exact cellAll_locationStage_absent w6 habs

theorem cleanTable_cuisines_default {df : DataFrame} (hwf : df.Wf)
    (h1 : ("Cuisines" : String) ∉ df.cols) (h2 : ("cuisine" : String) ∉ df.cols)
    (h3 : ("Cuisine" : String) ∉ df.cols) (h4 : ("cuisines" : String) ∉ df.cols) :
    CellAll (cleanTable df) "cuisines" (fun v => v = .vStr "Unknown") := by
  have w1 : (renameStage df).Wf := wf_renameStage hwf
  have w2 := wf_dedupStage w1
  have w3 := wf_dropColsStage w2
  have w4 := wf_dropnaStage w3
  have w5 := wf_ratingStage w4
  have w6 := wf_costStage w5
  have w7 := wf_locationStage w6
  have w8 := wf_cuisinesStage w7
  have w9 := wf_votesStage w8
  have w10 := wf_costCategoryStage w9
  have w11 := wf_primaryCuisineStage w10
  have habs : "cuisines" ∉
      (locationStage (costStage (ratingStage (dropnaStage (dropColsStage
        (dedupStage (renameStage df))))))).cols := by
    refine not_mem_cols_locationStage ?_ (by decide)
    refine not_mem_cols_costStage ?_ (by decide)
    refine not_mem_cols_ratingStage ?_ (by decide)
    refine not_mem_cols_dropnaStage ?_
    refine not_mem_cols_dropColsStage ?_
    refine not_mem_cols_dedupStage ?_
    exact cuisines_not_mem_applyRenames h1 h2 h3 h4
  unfold cleanTable
  refine cellAll_normalizedRatingStage_other w11 (by decide) ?_
  refine cellAll_primaryCuisineStage_other w10 (by decide) ?_
  refine cellAll_costCategoryStage_other w9 (by decide) ?_
  refine cellAll_votesStage_other w8 (by decide) ?_
  exact cellAll_cuisinesStage_absent w7 habs

theorem cleanTable_votes_default {df : DataFrame} (hwf : df.Wf)
    (h1 : ("Votes" : String) ∉ df.cols) (h2 : ("votes" : String) ∉ df.cols)
    (h3 : ("vote_count" : String) ∉ df.cols) :
    CellAll (cleanTable df) "votes" (fun v => v = .vNum 0) := by
  have w1 : (renameStage df).Wf := wf_renameStage hwf
  have w2 := wf_dedupStage w1
  have w3 := wf_dropColsStage w2
  have w4 := wf_dropnaStage w3
  have w5 := wf_ratingStage w4
  have w6 := wf_costStage w5
  have w7 := wf_locationStage w6
  have w8 := wf_cuisinesStage w7
  have w9 := wf_votesStage w8
  have w10 := wf_costCategoryStage w9
  have w11 := wf_primaryCuisineStage w10
  have habs : "votes" ∉
      (cuisinesStage (locationStage (costStage (ratingStage (dropnaStage (dropColsStage
        (dedupStage (renameStage df)))))))).cols := by
    refine not_mem_cols_cuisinesStage ?_ (by decide)
    refine not_mem_cols_locationStage ?_ (by decide)
    refine not_mem_cols_costStage ?_ (by decide)
    refine not_mem_cols_ratingStage ?_ (by decide)
    refine not_mem_cols_dropnaStage ?_
    refine not_mem_cols_dropColsStage ?_
    refine not_mem_cols_dedupStage ?_
    exact votes_not_mem_applyRenames h1 h2 h3
  unfold cleanTable
  refine cellAll_normalizedRatingStage_other w11 (by decide) ?_
  refine cellAll_primaryCuisineStage_other w10 (by decide) ?_
  refine cellAll_costCategoryStage_other w9 (by decide) ?_
  exact cellAll_votesStage_absent w8 habs

theorem cellAll_primaryCuisineStage_from_cuisines {df : DataFrame} (hwf : df.Wf)
    (h : CellAll df "cuisines" (fun v => v = .vStr "Unknown")) :
    CellAll (primaryCuisineStage df) "primary_cuisine" (fun v => v = .vStr "Unknown") := by
  unfold primaryCuisineStage
  refine cellAll_derive_self _ _ _ _ hwf ?_
  intro r hr
  rw [h r hr]
  decide

theorem cleanTable_primary_unknown {df : DataFrame} (hwf : df.Wf)
    (h1 : ("Cuisines" : String) ∉ df.cols) (h2 : ("cuisine" : String) ∉ df.cols)
    (h3 : ("Cuisine" : String) ∉ df.cols) (h4 : ("cuisines" : String) ∉ df.cols) :
    CellAll (cleanTable df) "primary_cuisine" (fun v => v = .vStr "Unknown") := by
  have w1 : (renameStage df).Wf := wf_renameStage hwf
  have w2 := wf_dedupStage w1
  have w3 := wf_dropColsStage w2
  have w4 := wf_dropnaStage w3
  have w5 := wf_ratingStage w4
  have w6 := wf_costStage w5
  have w7 := wf_locationStage w6
  have w8 := wf_cuisinesStage w7
  have w9 := wf_votesStage w8
  have w10 := wf_costCategoryStage w9
  have w11 := wf_primaryCuisineStage w10
  have habs : "cuisines" ∉
      (locationStage (costStage (ratingStage (dropnaStage (dropColsStage
        (dedupStage (renameStage df))))))).cols := by
    refine not_mem_cols_locationStage ?_ (by decide)
    refine not_mem_cols_costStage ?_ (by decide)
    refine not_mem_cols_ratingStage ?_ (by decide)
    refine not_mem_cols_dropnaStage ?_
    refine not_mem_cols_dropColsStage ?_
    refine not_mem_cols_dedupStage ?_
    exact cuisines_not_mem_applyRenames h1 h2 h3 h4
  have hcuis8 := cellAll_cuisinesStage_absent w7 habs
  have hcuis9 := cellAll_votesStage_other w8 (by decide) hcuis8
  have hcuis10 := cellAll_costCategoryStage_other w9 (by decide) hcuis9
  have hprim := cellAll_primaryCuisineStage_from_cuisines w10 hcuis10
  unfold cleanTable
  exact cellAll_normalizedRatingStage_other w11 (by decide) hprim

/-! ### The filter stage as a single predicate -/

theorem foldl_filter_eq {α : Type} (conds : List (α → Bool)) (l : List α) :
    conds.foldl (fun rs c => rs.filter c) l =
      l.filter (fun r => conds.all (fun c => c r)) := by
  induction conds generalizing l with
  | nil => simp
  | cons c cs ih =>
    rw [List.foldl_cons, ih, List.filter_filter]
    apply List.filter_congr
    intro a _
    simp [Bool.and_comm]

theorem foldl_filter_idem {α : Type} (conds : List (α → Bool)) (l : List α) :
    conds.foldl (fun rs c => rs.filter c)
      (conds.foldl (fun rs c => rs.filter c) l) =
      conds.foldl (fun rs c => rs.filter c) l := by
  rw [foldl_filter_eq, foldl_filter_eq, List.filter_filter]
  apply List.filter_congr
  intro a _
  simp

theorem cuisineCond_eq_spec (cols : List String) (cs : List String) (r : List Val) :
    cuisineCond cols (cs.map toLowerStr) r = specCuisineOk cols cs r := by
  unfold cuisineCond specCuisineOk regexAltContains
  cases getCell cols r "primary_cuisine" with
  | vStr s => cases cs <;> simp [List.any_map, Function.comp_def]
  | vNum q => rfl
  | vNull => rfl

theorem budgetCond_eq_spec (cols : List String) (b : String) (r : List Val) :
    budgetCond cols b r = specBudgetOk cols b r := rfl

theorem locCond_eq_spec (cols : List String) (loc : String) (r : List Val) :
    locCond cols (toLowerStr loc) r = specLocationOk cols loc r := rfl

/-! ### Helper facts about the condition list -/

theorem condsFor_ne_nil (cols : List String) (cs : List String) (b loc : String)
    (h : "primary_cuisine" ∈ cols ∨ "cost_category" ∈ cols ∨ "location" ∈ cols) :
    condsFor cols cs b loc ≠ [] := by
  by_cases h1 : "primary_cuisine" ∈ cols
  · have b1 : cols.contains "primary_cuisine" = true := by
      simp [contains_eq_decide_mem, h1]
    simp only [condsFor, b1]
    simp
  · have b1 : cols.contains "primary_cuisine" = false := by
      simp [contains_eq_decide_mem, h1]
    by_cases h2 : "cost_category" ∈ cols
    · have b2 : cols.contains "cost_category" = true := by
        simp [contains_eq_decide_mem, h2]
      simp only [condsFor, b1, b2]
      simp
    · have b2 : cols.contains "cost_category" = false := by
        simp [contains_eq_decide_mem, h2]
      by_cases h3 : "location" ∈ cols
      · have b3 : cols.contains "location" = true := by
          simp [contains_eq_decide_mem, h3]
        simp only [condsFor, b1, b2, b3]
        simp
      · rcases h with h | h | h <;> contradiction

/-! ## The claims -/

/-- C8: `cost_category` is a pure deterministic function of cost:
`cost < 300` yields low, `300 ≤ cost < 700` yields medium,
`cost ≥ 700` yields high, with exact boundaries
(`299.99 → low`, `300 → medium`, `699.99 → medium`, `700 → high`), and
any non-numeric/unparsable cost — a string that Python's `float` (and
`parseNumQ`) rejects — yields medium.  (A `NaN` cell or special float
string parses successfully in Python and is outside the
"non-numeric/unparsable" class; it cannot occur post-cleaning.) -/
theorem c8_cost_category :
    (∀ q : ℚ, q < 300 → categorize_cost (.vNum q) = "low") ∧
    (∀ q : ℚ, 300 ≤ q → q < 700 → categorize_cost (.vNum q) = "medium") ∧
    (∀ q : ℚ, 700 ≤ q → categorize_cost (.vNum q) = "high") ∧
    categorize_cost (.vNum (29999 / 100)) = "low" ∧
    categorize_cost (.vNum 300) = "medium" ∧
    categorize_cost (.vNum (69999 / 100)) = "medium" ∧
    categorize_cost (.vNum 700) = "high" ∧
    (∀ s : String, parseNumQ s = none → pyFloatSpecial s = false →
      categorize_cost (.vStr s) = "medium") := by
  refine ⟨?_, ?_, ?_, by decide, by decide, by decide, by decide, ?_⟩
  · intro q h
    show catQ q = "low"
    unfold catQ
    rw [if_pos h]
  · intro q h1 h2
    show catQ q = "medium"
    unfold catQ
    rw [if_neg (not_lt.mpr h1), if_pos h2]
  · intro q h
    show catQ q = "high"
    unfold catQ
    rw [if_neg (not_lt.mpr (le_trans (by norm_num) h)), if_neg (not_lt.mpr h)]
  · intro s hp hf
    unfold pyFloatSpecial at hf
    simp only [Bool.or_eq_false_iff] at hf
    obtain ⟨⟨hn, hpi⟩, hni⟩ := hf
    simp [categorize_cost, hn, hpi, hni, hp]

/-- Witness for C8 at concrete inputs. -/
theorem c8_cost_category_witness :
    ((29999 : ℚ) / 100 < 300 ∧ categorize_cost (.vNum (29999 / 100)) = "low") ∧
    (parseNumQ "abc" = none ∧ pyFloatSpecial "abc" = false ∧
      categorize_cost (.vStr "abc") = "medium") :=
  ⟨⟨by decide, c8_cost_category.1 _ (by decide)⟩,
   ⟨by decide, by decide, c8_cost_category.2.2.2.2.2.2.2 "abc" (by decide) (by decide)⟩⟩

/-- C4: for every filtered record, the score is
`0.8 * normalized_rating + 0.2 * vote_signal` under the rating-heavy
strategy and `0.5 * normalized_rating + 0.5 * vote_signal` under the
votes-heavy strategy, where `vote_signal = min(votes, 1000) / 1000` and
a null votes cell contributes `0` without excluding the record (the
score is still `some _`). -/
theorem c4_scoring (cols : List String) (row : List Val) (r sv : ℚ)
    (hr : getCell cols row "normalized_rating" = .vNum r)
    (hv : voteSignal (getCell cols row "votes") = some sv) :
    scoreRow cols "A: Rating-heavy" row = some (r * (8 / 10) + sv * (2 / 10)) ∧
    scoreRow cols "B: Votes-heavy" row = some (r * (5 / 10) + sv * (5 / 10)) ∧
    (∀ v : ℚ, getCell cols row "votes" = .vNum v → sv = min v 1000 / 1000) ∧
    (getCell cols row "votes" = .vNull → sv = 0) := by
  refine ⟨?_, ?_, ?_, ?_⟩
  · unfold scoreRow
    rw [hr, hv]
    simp
  · unfold scoreRow
    rw [hr, hv]
    simp
  · intro v hveq
    rw [hveq] at hv
    unfold voteSignal at hv
    exact (Option.some.inj hv).symm
  · intro hnull
    rw [hnull] at hv
    unfold voteSignal at hv
    exact (Option.some.inj hv).symm

/-- Witness for C4: the spec's worked example — `normalized_rating = 5`
with `votes = 2000` (capped) scores `4.2` under rating-heavy and `3.0`
under votes-heavy. -/
theorem c4_scoring_witness :
    getCell ["normalized_rating", "votes"] [.vNum 5, .vNum 2000] "normalized_rating" =
      .vNum 5 ∧
    voteSignal (getCell ["normalized_rating", "votes"] [.vNum 5, .vNum 2000] "votes") =
      some 1 ∧
    scoreRow ["normalized_rating", "votes"] "A: Rating-heavy" [.vNum 5, .vNum 2000] =
      some (21 / 5) ∧
    scoreRow ["normalized_rating", "votes"] "B: Votes-heavy" [.vNum 5, .vNum 2000] =
      some 3 := by
  have h := c4_scoring ["normalized_rating", "votes"] [.vNum 5, .vNum 2000] 5 1
    (by decide) (by decide)
  refine ⟨by decide, by decide, ?_, ?_⟩
  · rw [h.1]; decide
  · rw [h.2.1]; decide

/-- C10: every strategy value other than the exact string
`"A: Rating-heavy"` — malformed or out-of-enum included — is scored
with the votes-heavy `0.5 / 0.5` weights, and no error is raised
(well-typed cells still produce `some` score). -/
theorem c10_default_strategy (strategy : String) (h : strategy ≠ "A: Rating-heavy")
    (cols : List String) (row : List Val) :
    scoreRow cols strategy row = scoreRow cols "B: Votes-heavy" row ∧
    (∀ r sv : ℚ, getCell cols row "normalized_rating" = .vNum r →
      voteSignal (getCell cols row "votes") = some sv →
      scoreRow cols strategy row = some (r * (5 / 10) + sv * (5 / 10))) := by
  constructor
  · unfold scoreRow
    cases getCell cols row "normalized_rating" <;>
      cases voteSignal (getCell cols row "votes") <;> simp [h]
  · intro r sv hr hv
    unfold scoreRow
    rw [hr, hv]
    simp [h]

/-- Witness for C10 with a malformed strategy string. -/
theorem c10_default_strategy_witness :
    ("totally-bogus" : String) ≠ "A: Rating-heavy" ∧
    scoreRow ["normalized_rating", "votes"] "totally-bogus" [.vNum 4, .vNum 500] =
      scoreRow ["normalized_rating", "votes"] "B: Votes-heavy" [.vNum 4, .vNum 500] ∧
    scoreRow ["normalized_rating", "votes"] "totally-bogus" [.vNum 4, .vNum 500] =
      some (4 * (5 / 10) + 1 / 2 * (5 / 10)) := by
  have h := c10_default_strategy "totally-bogus" (by decide)
    ["normalized_rating", "votes"] [.vNum 4, .vNum 500]
  exact ⟨by decide, h.1, h.2 4 (1 / 2) (by decide) (by decide)⟩

/-- C5 (code bug): a decode failure of the primary `latin1` read IS
retried exactly once under `iso-8859-1` (second conjunct), but when
that retry also fails the exception escapes `load_and_clean_data`
uncaught — the sibling `except Exception` clause does not catch
exceptions raised inside the first `except` clause — so no descriptive
error is surfaced (first and third conjuncts); the handled
error-message path is only reached by a NON-decode failure of the first
attempt, which is not retried at all (fourth conjunct). -/
theorem c5_load_fallback :
    load_and_clean_data ⟨.error .unicodeDecodeError, .error .unicodeDecodeError⟩ =
      .uncaught .unicodeDecodeError ∧
    (∀ df, load_and_clean_data ⟨.error .unicodeDecodeError, .ok df⟩ =
      .ok (cleanTable df)) ∧
    (∀ e, load_and_clean_data ⟨.error .unicodeDecodeError, .error e⟩ = .uncaught e) ∧
    (∀ m r2, load_and_clean_data ⟨.error (.otherExc m), r2⟩ =
      .errorReturn ("Error loading file: " ++ m)) ∧
    (∀ df r2, load_and_clean_data ⟨.ok df, r2⟩ = .ok (cleanTable df)) :=
  ⟨rfl, fun _ => rfl, fun _ => rfl, fun _ _ => rfl, fun _ _ => rfl⟩

/-- C2: re-invoking `filter_and_rank_restaurants` on the stored
filtered view with the same request and strategy returns the same
ranked top (records, order, scores and explanations) as the original
call — filtering an already-filtered set with the same predicates is a
no-op and everything downstream is deterministic. -/
theorem c2_rerank_equiv (df : DataFrame) (cuisines : List String)
    (budget location strategy : String) (topN : Nat) :
    (filter_and_rank_restaurants (filteredView df cuisines budget location)
        cuisines budget location strategy topN).map Prod.fst =
      (filter_and_rank_restaurants df cuisines budget location strategy topN).map
        Prod.fst := by
  have hfr := foldl_filter_idem
    (condsFor df.cols (cuisines.map toLowerStr) budget (toLowerStr location)) df.rows
  simp only [filter_and_rank_restaurants, filteredView, hfr]
  by_cases hb : (df.cols.contains "normalized_rating" && df.cols.contains "votes") = true
  · simp only [hb, if_true]
    rcases hm : List.mapM (scoreRow df.cols strategy)
        ((condsFor df.cols (cuisines.map toLowerStr) budget
          (toLowerStr location)).foldl (fun rs c => rs.filter c) df.rows) with _ | scores <;>
      simp [hm]
  · simp only [hb, if_false]
    rfl

/-- C3 counterexample: with an empty requested-cuisine set the filter
retains a record (the empty regex alternation `''` matches everything)
even though the claim's condition — a substring match against ANY
requested cuisine — is false, there being no requested cuisine.  The
input is squarely inside the regex-literal fragment (the location
`"bang"` is metacharacter-free and there are no cuisine strings), so
the trace is the source's behaviour, not a modelling artifact. -/
theorem c3_counterexample :
    (filteredView ⟨["primary_cuisine", "cost_category", "location"],
        [[.vStr "thai", .vStr "low", .vStr "bangalore"]]⟩ [] "low" "bang").rows =
      [[.vStr "thai", .vStr "low", .vStr "bangalore"]] ∧
    specRetainStrict ["primary_cuisine", "cost_category", "location"] [] "low" "bang"
      [.vStr "thai", .vStr "low", .vStr "bangalore"] = false ∧
    regexLiteral "bang" = true := by decide

/-- C3 amended, stated on the regex-literal fragment (every requested
cuisine and the requested location free of `re` metacharacters — where
`str.contains`'s regex search coincides with substring containment and
`re.error` is impossible): a record is retained iff all structurally
applicable conditions hold — cuisine substring match (with the
convention that an EMPTY requested-cuisine set matches every record
with a non-null string `primary_cuisine`), case-insensitive budget
equality, and location substring containment — each skipped when its
backing column is absent; with all three backing columns absent the
dataset passes through unfiltered.  Outside the fragment the source
matches with full regex semantics (`'b.ng'` matches `'bang'`,
`'Delhi (NCR)'` matches `'delhi ncr'` but not itself, `'('` raises
`re.error`), so the claim's substring reading fails there too; no
theorem is stated on such requests. -/
theorem c3_amended (df : DataFrame) (cs : List String) (budget location : String)
    (hcs : ∀ c ∈ cs, regexLiteral c = true) (hloc : regexLiteral location = true) :
    (filteredView df cs budget location).rows =
      df.rows.filter (specRetain df.cols cs budget location) ∧
    ("primary_cuisine" ∉ df.cols → "cost_category" ∉ df.cols → "location" ∉ df.cols →
      filteredView df cs budget location = df) := by
  constructor
  · show (condsFor df.cols (cs.map toLowerStr) budget (toLowerStr location)).foldl
      (fun rs c => rs.filter c) df.rows = _
    rw [foldl_filter_eq]
    apply List.filter_congr
    intro r _
    by_cases h1 : "primary_cuisine" ∈ df.cols <;>
      by_cases h2 : "cost_category" ∈ df.cols <;>
        by_cases h3 : "location" ∈ df.cols <;>
          simp [condsFor, specRetain, contains_eq_decide_mem, h1, h2, h3,
            cuisineCond_eq_spec, budgetCond_eq_spec, locCond_eq_spec, Bool.and_assoc]
  · intro h1 h2 h3
    have b1 : df.cols.contains "primary_cuisine" = false := by
      simp [contains_eq_decide_mem, h1]
    have b2 : df.cols.contains "cost_category" = false := by
      simp [contains_eq_decide_mem, h2]
    have b3 : df.cols.contains "location" = false := by
      simp [contains_eq_decide_mem, h3]
    simp [filteredView, condsFor, b1, b2, b3, h1, h2, h3]

/-- Witness for C3 amended: a regex-literal request, the
filter-equality at a populated frame, and the degenerate pass-through
at a frame lacking all three backing columns. -/
theorem c3_amended_witness :
    (∀ c ∈ (["thai"] : List String), regexLiteral c = true) ∧
    regexLiteral "bang" = true ∧
    (filteredView ⟨["primary_cuisine", "cost_category", "location"],
        [[.vStr "thai", .vStr "low", .vStr "bangalore"]]⟩ ["thai"] "low" "bang").rows =
      (⟨["primary_cuisine", "cost_category", "location"],
        [[.vStr "thai", .vStr "low", .vStr "bangalore"]]⟩ : DataFrame).rows.filter
        (specRetain ["primary_cuisine", "cost_category", "location"] ["thai"] "low" "bang") ∧
    filteredView ⟨["x"], [[.vNum 1]]⟩ ["thai"] "low" "bang" = ⟨["x"], [[.vNum 1]]⟩ :=
  ⟨by decide, by decide,
   (c3_amended ⟨["primary_cuisine", "cost_category", "location"],
      [[.vStr "thai", .vStr "low", .vStr "bangalore"]]⟩ ["thai"] "low" "bang"
      (by decide) (by decide)).1,
   (c3_amended ⟨["x"], [[.vNum 1]]⟩ ["thai"] "low" "bang" (by decide) (by decide)).2
     (by decide) (by decide) (by decide)⟩

/-- C9 counterexample: in the degenerate pass-through case — none of
the three backing columns present — `filtered_df` aliases the caller's
frame, so the score assignment mutates the caller's dataset: the call
succeeds, yet afterwards the input frame carries a `score` column. -/
theorem c9_counterexample :
    (filter_and_rank_restaurants ⟨["normalized_rating", "votes"], [[.vNum 4, .vNum 10]]⟩
        ["thai"] "low" "bangalore" "A: Rating-heavy" 10).isSome = true ∧
    (filter_and_rank_restaurants ⟨["normalized_rating", "votes"], [[.vNum 4, .vNum 10]]⟩
        ["thai"] "low" "bangalore" "A: Rating-heavy" 10).map Prod.snd ≠
      some ⟨["normalized_rating", "votes"], [[.vNum 4, .vNum 10]]⟩ := by decide

/-- C9 amended: whenever at least one of the three backing columns is
present, at least one filter condition applies, the working view is a
copy, and the caller's input frame is returned unchanged — the `score`
and `explanation` fields never appear on it. -/
theorem c9_amended (df : DataFrame) (cuisines : List String)
    (budget location strategy : String) (topN : Nat)
    (h : "primary_cuisine" ∈ df.cols ∨ "cost_category" ∈ df.cols ∨ "location" ∈ df.cols)
    (res : DataFrame × DataFrame)
    (heq : filter_and_rank_restaurants df cuisines budget location strategy topN =
      some res) :
    res.2 = df := by
  have hne := condsFor_ne_nil df.cols (cuisines.map toLowerStr) budget
    (toLowerStr location) h
  have hemp : (condsFor df.cols (cuisines.map toLowerStr) budget
      (toLowerStr location)).isEmpty = false := by
    cases he : (condsFor df.cols (cuisines.map toLowerStr) budget
        (toLowerStr location)).isEmpty
    · rfl
    · exact absurd (List.isEmpty_iff.mp he) hne
  simp only [filter_and_rank_restaurants, hemp, Bool.false_eq_true, if_false] at heq
  split at heq
  · rcases hm : List.mapM (scoreRow df.cols strategy)
        ((condsFor df.cols (cuisines.map toLowerStr) budget
          (toLowerStr location)).foldl (fun rs c => rs.filter c) df.rows) with _ | scores
    · rw [hm] at heq
      exact absurd heq (by simp)
    · rw [hm] at heq
      have := Option.some.inj heq
      rw [← this]
  · exact absurd heq (by simp)

/-- Witness for C9 amended at a concrete frame with a `location`
column: the returned second component is the unchanged input. -/
theorem c9_amended_witness :
    ("location" ∈
      (⟨["location", "normalized_rating", "votes"],
        [[.vStr "bangalore", .vNum 4, .vNum 10]]⟩ : DataFrame).cols) ∧
    (filter_and_rank_restaurants
        ⟨["location", "normalized_rating", "votes"],
          [[.vStr "bangalore", .vNum 4, .vNum 10]]⟩
        ["thai"] "low" "bang" "A: Rating-heavy" 10).map Prod.snd =
      some ⟨["location", "normalized_rating", "votes"],
        [[.vStr "bangalore", .vNum 4, .vNum 10]]⟩ := by
  refine ⟨by decide, ?_⟩
  rcases hres : filter_and_rank_restaurants
      ⟨["location", "normalized_rating", "votes"],
        [[.vStr "bangalore", .vNum 4, .vNum 10]]⟩
      ["thai"] "low" "bang" "A: Rating-heavy" 10 with _ | res
  · exact absurd hres (by decide)
  · have h2 := c9_amended _ ["thai"] "low" "bang" "A: Rating-heavy" 10
      (Or.inr (Or.inr (by decide))) res hres
    simp [h2]

/-- C6 counterexample: a source with a `name` column but NO `location`
column still gets deduplicated — on `name` alone — so two rows sharing
only a name collapse to one, where the claim says no deduplication at
all should occur when either key column is absent. -/
theorem c6_counterexample :
    ("location" ∉ (⟨["name", "x"],
        [[.vStr "a", .vNum 1], [.vStr "a", .vNum 2]]⟩ : DataFrame).cols) ∧
    (⟨["name", "x"],
        [[.vStr "a", .vNum 1], [.vStr "a", .vNum 2]]⟩ : DataFrame).rows.length = 2 ∧
    (cleanTable ⟨["name", "x"],
        [[.vStr "a", .vNum 1], [.vStr "a", .vNum 2]]⟩).rows.length = 1 := by decide

/-- C6 amended: deduplication keys on the PRESENT subset of
`(name, location)`: with at least one of the two columns present, the
dedup stage keeps exactly one representative (the first occurrence) of
each key class — key = the pair when both are present, the single
present column otherwise; only when both columns are absent does no
deduplication occur. -/
theorem c6_amended (df : DataFrame) :
    (("name" ∈ df.cols ∨ "location" ∈ df.cols) →
      (dedupStage df).rows.Pairwise (fun a b => keyOf df.cols a ≠ keyOf df.cols b) ∧
      ∀ r ∈ df.rows, ∃ s ∈ (dedupStage df).rows, keyOf df.cols s = keyOf df.cols r) ∧
    ("name" ∉ df.cols → "location" ∉ df.cols → dedupStage df = df) := by
  constructor
  · intro h
    have hkey : dedupKeyCols df.cols ≠ [] := by
      rcases h with h | h
      · have hm : "name" ∈ dedupKeyCols df.cols := List.mem_filter.mpr
          ⟨by simp, by simp [contains_eq_decide_mem, h]⟩
        exact List.ne_nil_of_mem hm
      · have hm : "location" ∈ dedupKeyCols df.cols := List.mem_filter.mpr
          ⟨by simp, by simp [contains_eq_decide_mem, h]⟩
        exact List.ne_nil_of_mem hm
    have hb : (dedupKeyCols df.cols).isEmpty = false := by
      cases he : (dedupKeyCols df.cols).isEmpty
      · rfl
      · exact absurd (List.isEmpty_iff.mp he) hkey
    unfold dedupStage
    rw [hb]
    simp only [Bool.false_eq_true, if_false]
    exact ⟨dedupBy_pairwise _ _, fun r hr => dedupBy_covers _ _ r hr⟩
  · intro h1 h2
    have hk : dedupKeyCols df.cols = [] := by
      unfold dedupKeyCols
      rw [List.filter_eq_nil_iff]
      intro a ha
      simp only [List.mem_cons, List.not_mem_nil, or_false] at ha
      rcases ha with rfl | rfl <;> simp [contains_eq_decide_mem, h1, h2]
    unfold dedupStage
    rw [hk]
    rfl

/-- Witness for C6 amended: dedup on `name` alone when `location` is
absent, and the no-dedup identity when both key columns are absent. -/
theorem c6_amended_witness :
    ("name" ∈ (⟨["name"], [[.vStr "a"], [.vStr "a"]]⟩ : DataFrame).cols ∨
      "location" ∈ (⟨["name"], [[.vStr "a"], [.vStr "a"]]⟩ : DataFrame).cols) ∧
    ((dedupStage ⟨["name"], [[.vStr "a"], [.vStr "a"]]⟩).rows.Pairwise
        (fun a b => keyOf ["name"] a ≠ keyOf ["name"] b) ∧
      ∀ r ∈ (⟨["name"], [[.vStr "a"], [.vStr "a"]]⟩ : DataFrame).rows,
        ∃ s ∈ (dedupStage ⟨["name"], [[.vStr "a"], [.vStr "a"]]⟩).rows,
          keyOf ["name"] s = keyOf ["name"] r) ∧
    dedupStage ⟨["z"], [[.vNum 1]]⟩ = ⟨["z"], [[.vNum 1]]⟩ :=
  ⟨Or.inl (by decide),
   (c6_amended ⟨["name"], [[.vStr "a"], [.vStr "a"]]⟩).1 (Or.inl (by decide)),
   (c6_amended ⟨["z"], [[.vNum 1]]⟩).2 (by decide) (by decide)⟩

/-- C7 counterexample: with the cuisines column entirely absent the
pipeline succeeds, but the resulting `primary_cuisine` is the
CAPITALISED sentinel `"Unknown"` (line 83 assigns `'Unknown'` without
the `.str.lower()` applied on the present-column path), not the
lowercase `"unknown"` the claim states. -/
theorem c7_counterexample :
    (cleanTable ⟨["rating"], [[.vNum 4]]⟩).rows.length = 1 ∧
    getCell (cleanTable ⟨["rating"], [[.vNum 4]]⟩).cols
      ((cleanTable ⟨["rating"], [[.vNum 4]]⟩).rows.headD []) "primary_cuisine" =
      .vStr "Unknown" ∧
    (Val.vStr "Unknown" ≠ Val.vStr "unknown") := by decide

/-- C7 amended: for every well-formed source table from which the
cuisines column (under any of its aliases) is entirely absent, the
pipeline does not fail — `cleanTable` is total — and every resulting
record has `primary_cuisine` equal to the capitalised string
`"Unknown"`. -/
theorem c7_amended (df : DataFrame) (hwf : df.Wf)
    (h1 : ("Cuisines" : String) ∉ df.cols) (h2 : ("cuisine" : String) ∉ df.cols)
    (h3 : ("Cuisine" : String) ∉ df.cols) (h4 : ("cuisines" : String) ∉ df.cols) :
    ∀ row ∈ (cleanTable df).rows,
      getCell (cleanTable df).cols row "primary_cuisine" = .vStr "Unknown" :=
  cleanTable_primary_unknown hwf h1 h2 h3 h4

/-- Witness for C7 amended at a one-column table. -/
theorem c7_amended_witness :
    DataFrame.Wf ⟨["rating"], [[.vNum 4]]⟩ ∧
    ∀ row ∈ (cleanTable ⟨["rating"], [[.vNum 4]]⟩).rows,
      getCell (cleanTable ⟨["rating"], [[.vNum 4]]⟩).cols row "primary_cuisine" =
        .vStr "Unknown" :=
  ⟨by decide, c7_amended ⟨["rating"], [[.vNum 4]]⟩ (by decide)
    (by decide) (by decide) (by decide) (by decide)⟩

/-- C1 counterexample: a source lacking any name column loads and
cleans successfully, yet the output has NO name column at all — the
record's name cell is null, not an `"Unknown"` sentinel.  (The
`'Unknown Restaurant'` fallback lives in the display layer, line 227,
not in cleaning.) -/
theorem c1_counterexample :
    "name" ∉ (cleanTable ⟨["rating"], [[.vNum 4]]⟩).cols ∧
    (cleanTable ⟨["rating"], [[.vNum 4]]⟩).rows.length = 1 ∧
    getCell (cleanTable ⟨["rating"], [[.vNum 4]]⟩).cols
      ((cleanTable ⟨["rating"], [[.vNum 4]]⟩).rows.headD []) "name" = .vNull := by decide

/-- C1 amended: after cleaning, `rating` and `cost` are numeric and
non-null on every record; `location`, `cuisines` and `votes` are
defaulted to non-null values (`"Unknown"`, `"Unknown"`, `0`) whenever
their columns are absent from the source; `name` is NEVER defaulted —
when the source lacks every name alias, the cleaned output has no name
column (records carry no name value; the `"Unknown"` sentinel exists
only in the display layer). -/
theorem c1_amended (df : DataFrame) (hwf : df.Wf) :
    (∀ row ∈ (cleanTable df).rows,
      (∃ q, getCell (cleanTable df).cols row "rating" = .vNum q) ∧
      (∃ q, getCell (cleanTable df).cols row "cost" = .vNum q)) ∧
    ("Restaurant Name" ∉ df.cols → "restaurant_name" ∉ df.cols → "name" ∉ df.cols →
      "name" ∉ (cleanTable df).cols) ∧
    ("City" ∉ df.cols → "Locality" ∉ df.cols → "Locality Verbose" ∉ df.cols →
      "Address" ∉ df.cols → "location" ∉ df.cols →
      ∀ row ∈ (cleanTable df).rows,
        getCell (cleanTable df).cols row "location" = .vStr "Unknown") ∧
    ("Cuisines" ∉ df.cols → "cuisine" ∉ df.cols → "Cuisine" ∉ df.cols →
      "cuisines" ∉ df.cols →
      ∀ row ∈ (cleanTable df).rows,
        getCell (cleanTable df).cols row "cuisines" = .vStr "Unknown") ∧
    ("Votes" ∉ df.cols → "votes" ∉ df.cols → "vote_count" ∉ df.cols →
      ∀ row ∈ (cleanTable df).rows,
        getCell (cleanTable df).cols row "votes" = .vNum 0) :=
  ⟨fun row hr => ⟨cleanTable_rating_num hwf row hr, cleanTable_cost_num hwf row hr⟩,
   fun a b c => cleanTable_name_not_mem a b c,
   fun a b c d e => cleanTable_location_default hwf a b c d e,
   fun a b c d => cleanTable_cuisines_default hwf a b c d,
   fun a b c => cleanTable_votes_default hwf a b c⟩

/-- Witness for C1 amended at a one-column table lacking every alias. -/
theorem c1_amended_witness :
    DataFrame.Wf ⟨["rating"], [[.vNum 4]]⟩ ∧
    (∀ row ∈ (cleanTable ⟨["rating"], [[.vNum 4]]⟩).rows,
      (∃ q, getCell (cleanTable ⟨["rating"], [[.vNum 4]]⟩).cols row "rating" = .vNum q) ∧
      (∃ q, getCell (cleanTable ⟨["rating"], [[.vNum 4]]⟩).cols row "cost" = .vNum q)) ∧
    "name" ∉ (cleanTable ⟨["rating"], [[.vNum 4]]⟩).cols ∧
    (∀ row ∈ (cleanTable ⟨["rating"], [[.vNum 4]]⟩).rows,
      getCell (cleanTable ⟨["rating"], [[.vNum 4]]⟩).cols row "location" =
        .vStr "Unknown") ∧
    (∀ row ∈ (cleanTable ⟨["rating"], [[.vNum 4]]⟩).rows,
      getCell (cleanTable ⟨["rating"], [[.vNum 4]]⟩).cols row "votes" = .vNum 0) := by
  have h := c1_amended ⟨["rating"], [[.vNum 4]]⟩ (by decide)
  exact ⟨by decide, h.1,
    h.2.1 (by decide) (by decide) (by decide),
    h.2.2.1 (by decide) (by decide) (by decide) (by decide) (by decide),
    h.2.2.2.2 (by decide) (by decide) (by decide)⟩
